import Mathlib

/-!
Verification development for the AI-ops assistant agent orchestration loop.

The Python sources (`src/ai_ops_assistant/llm.py`, `src/ai_ops_assistant/orchestrator.py`,
`main.py`) are shallowly embedded here.  Python `str` values are modelled as `List Char`
(sequences of Unicode code points, matching Python's `len`/slicing semantics).  The
`re` module is modelled by a small backtracking regular-expression engine over an
explicit syntax tree (one term per pattern in the source), `json.loads` by an explicit
JSON parser, network / SSH / cancellation effects by oracle functions threaded through
the state, and Python exceptions by an `Except` layer at the places where the source
can actually raise (attribute errors on `.strip()` applied to non-string JSON values).
-/

namespace AiOps

/-- Python `str` modelled as a list of code points. -/
abbrev PyStr := List Char

/-- Shorthand: turn a Lean string literal into the `List Char` model of a Python str. -/
def S (s : String) : PyStr := s.toList

/-- Python `str.isspace` / `str.strip` whitespace set (ASCII part, which is all the
sources ever strip). -/
def pyIsSpace (c : Char) : Bool :=
  c == ' ' || c == '\t' || c == '\n' || c == '\r' || c == '\x0b' || c == '\x0c'

/-- Python `str.strip()` (no arguments): drop leading and trailing whitespace. -/
def pyStrip (s : PyStr) : PyStr :=
  (s.dropWhile pyIsSpace).reverse.dropWhile pyIsSpace |>.reverse

/-- Python `str.lower()` (ASCII case folding; the CJK characters appearing in the
sources have no case). -/
def pyLower (s : PyStr) : PyStr := s.map Char.toLower

/-- Python `needle in haystack` substring test (`"" in s` is `True`). -/
def pyContains (hay needle : PyStr) : Bool :=
  needle.isPrefixOf hay ||
    match hay with
    | [] => false
    | _ :: t => pyContains t needle

/-- Python `str.startswith`. -/
def pyStartsWith (s pre : PyStr) : Bool := pre.isPrefixOf s

/-- Python `str.find` for a single character: index of first occurrence or `-1`
(modelled as `Option Nat`). -/
def pyFindChar (s : PyStr) (c : Char) : Option Nat :=
  match s with
  | [] => none
  | x :: t => if x == c then some 0 else (pyFindChar t c).map (· + 1)

/-- Python `str.count` for a single character. -/
def pyCountChar (s : PyStr) (c : Char) : Nat :=
  s.countP (· == c)

/-- Python `str.replace(old, new)` for nonempty `old`: replace all non-overlapping
occurrences left to right. -/
def pyReplaceGo (fuel : Nat) (s old new : PyStr) : PyStr :=
  match fuel, s with
  | 0, s => s
  | _ + 1, [] => []
  | fuel + 1, c :: t =>
    if old ≠ [] ∧ old.isPrefixOf (c :: t) then
      new ++ pyReplaceGo fuel ((c :: t).drop old.length) old new
    else
      c :: pyReplaceGo fuel t old new

def pyReplace (s old new : PyStr) : PyStr :=
  pyReplaceGo s.length s old new

/-- Python `str.split()` with no argument: split on whitespace runs, dropping
empty pieces. -/
def pySplitWs (s : PyStr) : List PyStr :=
  ((s.splitOnP (pyIsSpace · = true)).filter (· ≠ [])).map id

/-- Python `str.split("\n")`: split on a separator character, keeping empty pieces. -/
def pySplitChar (s : PyStr) (c : Char) : List PyStr :=
  s.splitOnP (· == c)

/-- Python `str.isdigit` (ASCII digits; sufficient for the uid/gid fields tested). -/
def pyIsDigit (s : PyStr) : Bool :=
  s ≠ [] && s.all Char.isDigit

/-- Python `"\n".join(lines)`. -/
def pyJoinNl (lines : List PyStr) : PyStr :=
  match lines with
  | [] => []
  | [l] => l
  | l :: rest => l ++ '\n' :: pyJoinNl rest

/-- Decimal rendering of a natural number (for f-string interpolation of lengths,
ports and counters). -/
def natToStr (n : Nat) : PyStr := S (toString n)

/-! ### A small model of Python's `re` module

Only the features used by the embedded patterns are implemented: literals,
single-character classes, greedy and lazy star (whose bodies in all embedded
patterns consume at least one character), alternation (leftmost preference),
capturing groups, word boundaries `\b` (over the ASCII word characters that the
matched command/tag texts consist of), the multiline end-of-line anchor `$`,
and the single-character negative lookbehind `(?<!:)`. -/

/-- Regular-expression syntax tree. -/
inductive RE where
  | eps
  | lit (c : Char)
  | cls (p : Char → Bool)
  | seq (a b : RE)
  | alt (a b : RE)
  | starG (r : RE)
  | starL (r : RE)
  | grp (i : Nat) (r : RE)
  | wordB
  | lineEnd
  | prevNot (p : Char → Bool)

/-- Captured groups: later assignments first. -/
abbrev Groups := List (Nat × PyStr)

/-- Python `\w`: ASCII letters, digits and underscore (the texts the embedded
patterns apply `\b` to are ASCII command/tag fragments). -/
def isWordChar (c : Char) : Bool := c.isAlphanum || c == '_'

/-- `\b` holds between `prev` and the head of `s` when exactly one side is a
word character. -/
def atWordBoundary (prev : Option Char) (s : PyStr) : Bool :=
  let a := match prev with | some c => isWordChar c | none => false
  let b := match s with | c :: _ => isWordChar c | [] => false
  a != b

/-- One structural layer of the backtracking matcher.  `prev` is the character
just before the current position (for `\b` and lookbehind), `g` the groups
captured so far.  Greedy star prefers more iterations, lazy star fewer; both
re-enter through `lower` (the matcher at one unit less fuel) only after
consuming at least one character, matching Python's refusal to repeat
empty-width star bodies.  Structural recursion on `re` keeps the whole matcher
kernel-reducible. -/
def reMatchStep {α : Type}
    (lower : RE → Option Char → PyStr → Groups →
      (Option Char → PyStr → Groups → Option α) → Option α)
    (re : RE) (prev : Option Char) (s : PyStr) (g : Groups)
    (k : Option Char → PyStr → Groups → Option α) : Option α :=
  match re with
  | .eps => k prev s g
  | .lit c =>
    match s with
    | [] => none
    | x :: t => if x == c then k (some x) t g else none
  | .cls p =>
    match s with
    | [] => none
    | x :: t => if p x then k (some x) t g else none
  | .seq a b =>
    reMatchStep lower a prev s g (fun p' s' g' => reMatchStep lower b p' s' g' k)
  | .alt a b =>
    (reMatchStep lower a prev s g k).orElse (fun _ => reMatchStep lower b prev s g k)
  | .starG r =>
    (reMatchStep lower r prev s g (fun p' s' g' =>
      if s'.length < s.length then lower (.starG r) p' s' g' k
      else k p' s' g')).orElse (fun _ => k prev s g)
  | .starL r =>
    (k prev s g).orElse (fun _ =>
      reMatchStep lower r prev s g (fun p' s' g' =>
        if s'.length < s.length then lower (.starL r) p' s' g' k
        else none))
  | .grp i r =>
    reMatchStep lower r prev s g (fun p' s' g' =>
      k p' s' ((i, s.take (s.length - s'.length)) :: g'))
  | .wordB => if atWordBoundary prev s then k prev s g else none
  | .lineEnd =>
    match s with
    | [] => k prev s g
    | c :: _ => if c == '\n' then k prev s g else none
  | .prevNot p =>
    match prev with
    | none => k prev s g
    | some c => if p c then none else k prev s g

/-- Backtracking matcher; `fuel` bounds star unrolling (each unrolling consumes
at least one character, so any fuel above `s.length` is enough). -/
def reMatch {α : Type} (fuel : Nat) (re : RE) (prev : Option Char) (s : PyStr)
    (g : Groups) (k : Option Char → PyStr → Groups → Option α) : Option α :=
  match fuel with
  | 0 => none
  | fuel + 1 => reMatchStep (reMatch fuel) re prev s g k

/-- Attempt a match anchored at the current position; on success return the
matched text, the groups and the remaining input. -/
def reTry (re : RE) (prev : Option Char) (s : PyStr) :
    Option (PyStr × Groups × PyStr) :=
  (reMatch (s.length + 2) re prev s []
      (fun _ rest g => some (g, rest))).map
    (fun r => (s.take (s.length - r.2.length), r.1, r.2))

/-- One `re.search`-style match: `pre` is the text before the match, `matched`
the matched text, `rest` the text after it. -/
structure REFound where
  pre : PyStr
  matched : PyStr
  groups : Groups
  rest : PyStr

/-- Scan left to right for the first position where `re` matches. -/
def reSearchAux (re : RE) (prev : Option Char) (s : PyStr) (acc : PyStr) :
    Option REFound :=
  match reTry re prev s with
  | some (m, g, rest) => some ⟨acc.reverse, m, g, rest⟩
  | none =>
    match s with
    | [] => none
    | c :: t => reSearchAux re (some c) t (c :: acc)

/-- Python `re.search`. -/
def reSearch (re : RE) (s : PyStr) : Option REFound := reSearchAux re none s []

/-- Python `re.search(...) is not None`. -/
def reSearchB (re : RE) (s : PyStr) : Bool := (reSearch re s).isSome

/-- Extract a captured group (groups store later assignments first). -/
def grpGet (g : Groups) (i : Nat) : Option PyStr :=
  (g.find? (fun x => x.1 == i)).map (fun x => x.2)

/-- Python `re.finditer`: non-overlapping matches, scanning left to right.
All embedded patterns match at least one character; a zero-width match stops
the scan defensively. -/
def reFindIterAux (fuel : Nat) (re : RE) (prev : Option Char) (s : PyStr) :
    List REFound :=
  match fuel with
  | 0 => []
  | f + 1 =>
    match reSearchAux re prev s [] with
    | none => []
    | some m =>
      if m.matched = [] then [m]
      else
        let prev' :=
          match (m.pre ++ m.matched).getLast? with
          | some c => some c
          | none => prev
        m :: reFindIterAux f re prev' m.rest

/-- Python `re.finditer` from the start of the text. -/
def reFindIter (re : RE) (s : PyStr) : List REFound :=
  reFindIterAux (s.length + 1) re none s

/-- Python `re.sub` with a replacement built from the groups of each match. -/
def reSubAux (fuel : Nat) (re : RE) (repl : Groups → PyStr) (prev : Option Char)
    (s : PyStr) : PyStr :=
  match fuel with
  | 0 => s
  | f + 1 =>
    match reSearchAux re prev s [] with
    | none => s
    | some m =>
      if m.matched = [] then s
      else
        let prev' :=
          match (m.pre ++ m.matched).getLast? with
          | some c => some c
          | none => prev
        m.pre ++ repl m.groups ++ reSubAux f re repl prev' m.rest

/-- Python `re.sub` over the whole text. -/
def reSubAll (re : RE) (repl : Groups → PyStr) (s : PyStr) : PyStr :=
  reSubAux (s.length + 1) re repl none s

/-- Concatenate a list of regexes. -/
def reCat (l : List RE) : RE := l.foldr .seq .eps

/-- Literal string regex. -/
def reStr (cs : PyStr) : RE := reCat (cs.map .lit)

/-- Case-insensitive literal (pattern given in lowercase, as in the source). -/
def reStrCI (s : String) : RE :=
  reCat (s.toList.map (fun c => .cls (fun x => x.toLower == c)))

/-- `r+` as `r r*`. -/
def rePlus (r : RE) : RE := .seq r (.starG r)

/-- Greedy `r?`. -/
def reOpt (r : RE) : RE := .alt r .eps

/-- Python `\s` (ASCII portion). -/
def wsCls : Char → Bool := pyIsSpace

/-- `\s*`. -/
def wsStar : RE := .starG (.cls wsCls)

/-- `.` without `re.DOTALL`: any character except newline. -/
def dotNoNl : Char → Bool := fun c => c != '\n'

/-- `.` with `re.DOTALL` (also `[\s\S]`): any character. -/
def anyCls : Char → Bool := fun _ => true

/-! ### The regex patterns of `llm.py` and `orchestrator.py` -/

/-- `llm.py` `_TOOL_CALL_BLOCK_RE`:
`<tool_call>\s*(\{[^<]*\})\s*</tool_call>` with `re.DOTALL | re.IGNORECASE`. -/
def TOOL_CALL_BLOCK_RE : RE :=
  reCat [reStrCI "<tool_call>", wsStar,
    .grp 1 (reCat [.lit '\x7b', .starG (.cls (fun c => c != '<')), .lit '\x7d']),
    wsStar, reStrCI "</tool_call>"]

/-- `llm.py` `_JSON_TOOL_RE`:
`\{\s*"name"\s*:\s*"([^"]+)"\s*,\s*"arguments"\s*:\s*(\{(?:[^{}]|\{[^{}]*\})*\})\s*\}`
with `re.DOTALL`. -/
def JSON_TOOL_RE : RE :=
  reCat [.lit '\x7b', wsStar, .lit '"', reStr (S "name"), .lit '"', wsStar,
    .lit ':', wsStar, .lit '"',
    .grp 1 (rePlus (.cls (fun c => c != '"'))),
    .lit '"', wsStar, .lit ',', wsStar, .lit '"', reStr (S "arguments"), .lit '"',
    wsStar, .lit ':', wsStar,
    .grp 2 (reCat [.lit '\x7b',
      .starG (.alt (.cls (fun c => c != '\x7b' && c != '\x7d'))
        (reCat [.lit '\x7b', .starG (.cls (fun c => c != '\x7b' && c != '\x7d')),
          .lit '\x7d'])),
      .lit '\x7d']),
    wsStar, .lit '\x7d']

/-- `llm.py` `_JSON_LINE_COMMENT_RE`: `(?<!:)//.*$` with `re.MULTILINE`. -/
def JSON_LINE_COMMENT_RE : RE :=
  reCat [.prevNot (fun c => c == ':'), .lit '/', .lit '/', .starG (.cls dotNoNl),
    .lineEnd]

/-- `llm.py` `_THINK_BLOCK_RE`: `<think>.*?</think>` with
`re.DOTALL | re.IGNORECASE`. -/
def THINK_BLOCK_RE : RE :=
  reCat [reStrCI "<think>", .starL (.cls anyCls), reStrCI "</think>"]

/-- `llm.py` `_JSON_CODE_BLOCK_RE`: ```` ```(?:json)?\s*\n?(.*?)``` ```` with
`re.DOTALL | re.IGNORECASE`. -/
def JSON_CODE_BLOCK_RE : RE :=
  reCat [reStr (S "```"), reOpt (reStrCI "json"), wsStar, reOpt (.lit '\n'),
    .grp 1 (.starL (.cls anyCls)), reStr (S "```")]

/-- `llm.py` `_parse_self_coded_action` trailing-comma repair:
`re.sub(r",\s*([}\]])", r"\1", s)`. -/
def TRAILING_COMMA_RE : RE :=
  reCat [.lit ',', wsStar, .grp 1 (.cls (fun c => c == '\x7d' || c == ']'))]

/-- `llm.py` `_parse_self_coded_action` final-object scan:
`\{\s*"action"\s*:\s*"final"`. -/
def FINAL_ACTION_RE : RE :=
  reCat [.lit '\x7b', wsStar, .lit '"', reStr (S "action"), .lit '"', wsStar,
    .lit ':', wsStar, .lit '"', reStr (S "final"), .lit '"']

/-- `llm.py` `_parse_self_coded_action` runaway-message prefix:
`"message"\s*:\s*"`. -/
def MSG_PREFIX_RE : RE :=
  reCat [.lit '"', reStr (S "message"), .lit '"', wsStar, .lit ':', wsStar,
    .lit '"']

/-- `llm.py` `_build_df_table_from_messages` block pattern:
`<tool_result\s+asset="([^"]+)"[^>]*>([\s\S]*?)</tool_result>` with
`re.IGNORECASE`. -/
def TOOL_RESULT_ASSET_RE : RE :=
  reCat [reStrCI "<tool_result", rePlus (.cls wsCls), reStrCI "asset=",
    .lit '"', .grp 1 (rePlus (.cls (fun c => c != '"'))), .lit '"',
    .starG (.cls (fun c => c != '>')), .lit '>',
    .grp 2 (.starL (.cls anyCls)), reStrCI "</tool_result>"]

/-- `orchestrator.py` `_DANGEROUS_PATTERNS`, in source order. -/
def DANGEROUS_PATTERNS : List RE :=
  [ -- r"\brm\b.*\s-rf\b"
    reCat [.wordB, reStr (S "rm"), .wordB, .starG (.cls dotNoNl), .cls wsCls,
      reStr (S "-rf"), .wordB],
    -- r"\bmkfs(\.|)\b"
    reCat [.wordB, reStr (S "mkfs"), .alt (.lit '.') .eps, .wordB],
    -- r"\bdd\b"
    reCat [.wordB, reStr (S "dd"), .wordB],
    -- r":\s*\(\)\s*\{\s*:\s*\|\s*:\s*&\s*\}\s*;\s*:"
    reCat [.lit ':', wsStar, .lit '(', .lit ')', wsStar, .lit '\x7b', wsStar,
      .lit ':', wsStar, .lit '|', wsStar, .lit ':', wsStar, .lit '&', wsStar,
      .lit '\x7d', wsStar, .lit ';', wsStar, .lit ':'],
    -- r"\bshutdown\b"
    reCat [.wordB, reStr (S "shutdown"), .wordB],
    -- r"\breboot\b"
    reCat [.wordB, reStr (S "reboot"), .wordB],
    -- r"\binit\s+0\b"
    reCat [.wordB, reStr (S "init"), rePlus (.cls wsCls), .lit '0', .wordB],
    -- r">\s*/dev/sd[a-z]\b"
    reCat [.lit '>', wsStar, reStr (S "/dev/sd"),
      .cls (fun c => 'a' ≤ c && c ≤ 'z'), .wordB],
    -- r"\b:\s*>\s*/\b"
    reCat [.wordB, .lit ':', wsStar, .lit '>', wsStar, .lit '/', .wordB] ]

/-! ### A model of Python's `json` module

`json.loads` is modelled as a total parser returning `Option JVal` (`none`
models `JSONDecodeError`/`ValueError`, which every call site in the sources
catches).  Python dicts arising from JSON keep the last value for a duplicated
key, which `jGet`'s right-to-left lookup reproduces.  As in Python's strict
mode, unescaped control characters inside strings are rejected — this is what
makes `_fix_newlines_in_json_strings` necessary and must be preserved. -/

/-- JSON values as produced by `json.loads`.  Numbers keep their source lexeme
(only zero-ness, i.e. Python truthiness, is ever consumed by the sources). -/
inductive JVal where
  | null
  | bool (b : Bool)
  | num (raw : PyStr)
  | str (s : PyStr)
  | arr (items : List JVal)
  | obj (members : List (PyStr × JVal))
deriving BEq

/-- `d.get(k)` on a dict built by `json.loads`: last duplicate wins. -/
def jGet (v : JVal) (key : PyStr) : Option JVal :=
  match v with
  | .obj kvs => ((kvs.reverse).find? (fun m => m.1 == key)).map (fun m => m.2)
  | _ => none

/-- Zero test on a number lexeme (`0`, `-0.00`, `0e5`, ... are falsy in Python;
`NaN`/`Infinity` are truthy). -/
def jNumIsZero (raw : PyStr) : Bool :=
  let mantissa := (raw.takeWhile (fun c => c != 'e' && c != 'E')).filter Char.isDigit
  mantissa ≠ [] && mantissa.all (fun c => c == '0')

/-- Python truthiness of a JSON-derived value. -/
def jTruthy : JVal → Bool
  | .null => false
  | .bool b => b
  | .num raw => !jNumIsZero raw
  | .str s => !s.isEmpty
  | .arr items => !items.isEmpty
  | .obj kvs => !kvs.isEmpty


/-- Truthiness of an optional value (`d.get(k)` may be absent ⇒ `None` ⇒ falsy). -/
def jTruthyO : Option JVal → Bool
  | none => false
  | some v => jTruthy v

/-- JSON whitespace (`json.loads` skips exactly these). -/
def jsonWsC (c : Char) : Bool := c == ' ' || c == '\t' || c == '\n' || c == '\r'

def skipJsonWs (s : PyStr) : PyStr := s.dropWhile jsonWsC

def hexVal (c : Char) : Option Nat :=
  if '0' ≤ c ∧ c ≤ '9' then some (c.toNat - '0'.toNat)
  else if 'a' ≤ c ∧ c ≤ 'f' then some (c.toNat - 'a'.toNat + 10)
  else if 'A' ≤ c ∧ c ≤ 'F' then some (c.toNat - 'A'.toNat + 10)
  else none

def parseHex4 (s : PyStr) : Option (Nat × PyStr) :=
  match s with
  | a :: b :: c :: d :: rest =>
    match hexVal a, hexVal b, hexVal c, hexVal d with
    | some x, some y, some z, some w => some (((x * 16 + y) * 16 + z) * 16 + w, rest)
    | _, _, _, _ => none
  | _ => none

/-- Body of a JSON string after the opening quote; rejects raw control
characters and unknown escapes, decodes `\uXXXX` (pairing surrogates). -/
def parseJStringBody (fuel : Nat) (s : PyStr) (acc : PyStr) :
    Option (PyStr × PyStr) :=
  match fuel with
  | 0 => none
  | fuel + 1 =>
    match s with
    | [] => none
    | c :: t =>
      if c == '"' then some (acc.reverse, t)
      else if c == '\\' then
        match t with
        | [] => none
        | e :: t2 =>
          if e == '"' then parseJStringBody fuel t2 ('"' :: acc)
          else if e == '\\' then parseJStringBody fuel t2 ('\\' :: acc)
          else if e == '/' then parseJStringBody fuel t2 ('/' :: acc)
          else if e == 'b' then parseJStringBody fuel t2 ('\x08' :: acc)
          else if e == 'f' then parseJStringBody fuel t2 ('\x0c' :: acc)
          else if e == 'n' then parseJStringBody fuel t2 ('\n' :: acc)
          else if e == 'r' then parseJStringBody fuel t2 ('\r' :: acc)
          else if e == 't' then parseJStringBody fuel t2 ('\t' :: acc)
          else if e == 'u' then
            match parseHex4 t2 with
            | none => none
            | some (n, t3) =>
              if 0xD800 ≤ n ∧ n ≤ 0xDBFF then
                match t3 with
                | '\\' :: 'u' :: t4 =>
                  match parseHex4 t4 with
                  | some (m, t5) =>
                    if 0xDC00 ≤ m ∧ m ≤ 0xDFFF then
                      parseJStringBody fuel t5
                        (Char.ofNat (0x10000 + (n - 0xD800) * 0x400 + (m - 0xDC00)) :: acc)
                    else parseJStringBody fuel t3 (Char.ofNat n :: acc)
                  | none => parseJStringBody fuel t3 (Char.ofNat n :: acc)
                | _ => parseJStringBody fuel t3 (Char.ofNat n :: acc)
              else parseJStringBody fuel t3 (Char.ofNat n :: acc)
          else none
      else if c.toNat < 0x20 then none
      else parseJStringBody fuel t (c :: acc)

/-- Exponent part of a JSON number lexeme, if present. -/
def parseJExp (rest : PyStr) : PyStr × PyStr :=
  match rest with
  | e :: t2 =>
    if e == 'e' || e == 'E' then
      match t2 with
      | sign :: t3 =>
        if sign == '+' || sign == '-' then
          if (t3.takeWhile Char.isDigit) ≠ [] then
            (e :: sign :: t3.takeWhile Char.isDigit, t3.dropWhile Char.isDigit)
          else ([], rest)
        else if sign.isDigit then
          (e :: t2.takeWhile Char.isDigit, t2.dropWhile Char.isDigit)
        else ([], rest)
      | [] => ([], rest)
    else ([], rest)
  | [] => ([], rest)

/-- JSON number lexeme (`-?(0|[1-9]\d*)(\.\d+)?([eE][+-]?\d+)?`). -/
def parseJNumber (s : PyStr) : Option (PyStr × PyStr) :=
  let (neg, s1) :=
    match s with
    | '-' :: t => ((['-'] : PyStr), t)
    | _ => (([] : PyStr), s)
  match s1 with
  | [] => none
  | c :: t =>
    if c == '0' || c.isDigit then
      let ip : PyStr := if c == '0' then ['0'] else c :: t.takeWhile Char.isDigit
      let r1 := if c == '0' then t else t.dropWhile Char.isDigit
      let (fr, rest) :=
        match r1 with
        | '.' :: d :: t2 =>
          if d.isDigit then
            ('.' :: d :: t2.takeWhile Char.isDigit, t2.dropWhile Char.isDigit)
          else (([] : PyStr), r1)
        | _ => (([] : PyStr), r1)
      let (ex, rest2) := parseJExp rest
      some (neg ++ ip ++ fr ++ ex, rest2)
    else none

/-- Members of an object after the opening brace and leading whitespace;
`first` is true before any member has been read (allowing an immediate `}`). -/
def parseJMembersGo (pv : PyStr → Option (JVal × PyStr)) (fuel : Nat)
    (s : PyStr) (acc : List (PyStr × JVal)) (first : Bool) :
    Option (List (PyStr × JVal) × PyStr) :=
  match fuel with
  | 0 => none
  | fuel + 1 =>
    match s with
    | '\x7d' :: t => if first then some (acc.reverse, t) else none
    | '"' :: t =>
      match parseJStringBody (t.length + 1) t [] with
      | none => none
      | some (key, r1) =>
        match skipJsonWs r1 with
        | ':' :: r2 =>
          match pv (skipJsonWs r2) with
          | none => none
          | some (v, r3) =>
            match skipJsonWs r3 with
            | ',' :: r4 => parseJMembersGo pv fuel (skipJsonWs r4) ((key, v) :: acc) false
            | '\x7d' :: r4 => some (((key, v) :: acc).reverse, r4)
            | _ => none
        | _ => none
    | _ => none

/-- Items of an array after the opening bracket and leading whitespace. -/
def parseJItemsGo (pv : PyStr → Option (JVal × PyStr)) (fuel : Nat)
    (s : PyStr) (acc : List JVal) (first : Bool) :
    Option (List JVal × PyStr) :=
  match fuel with
  | 0 => none
  | fuel + 1 =>
    match s, first with
    | ']' :: t, true => some (acc.reverse, t)
    | _, _ =>
      match pv s with
      | none => none
      | some (v, r1) =>
        match skipJsonWs r1 with
        | ',' :: r2 => parseJItemsGo pv fuel (skipJsonWs r2) (v :: acc) false
        | ']' :: r2 => some ((v :: acc).reverse, r2)
        | _ => none

/-- One JSON value starting at `s` (no leading whitespace); `fuel` bounds
nesting depth. -/
def parseJVal (fuel : Nat) (s : PyStr) : Option (JVal × PyStr) :=
  match fuel with
  | 0 => none
  | fuel + 1 =>
    match s with
    | [] => none
    | c :: t =>
      if c == '"' then
        (parseJStringBody (t.length + 1) t []).map (fun r => (.str r.1, r.2))
      else if c == '\x7b' then
        (parseJMembersGo (parseJVal fuel) (t.length + 1) (skipJsonWs t) [] true).map
          (fun r => (.obj r.1, r.2))
      else if c == '[' then
        (parseJItemsGo (parseJVal fuel) (t.length + 1) (skipJsonWs t) [] true).map
          (fun r => (.arr r.1, r.2))
      else if pyStartsWith s (S "true") then some (.bool true, s.drop 4)
      else if pyStartsWith s (S "false") then some (.bool false, s.drop 5)
      else if pyStartsWith s (S "null") then some (.null, s.drop 4)
      else if pyStartsWith s (S "NaN") then some (.num (S "NaN"), s.drop 3)
      else if pyStartsWith s (S "Infinity") then some (.num (S "Infinity"), s.drop 8)
      else if pyStartsWith s (S "-Infinity") then some (.num (S "-Infinity"), s.drop 9)
      else parseJNumber s |>.map (fun r => (.num r.1, r.2))

/-- Python `json.loads`: whole-text parse, `none` models the raised
`JSONDecodeError`. -/
def pyJsonLoads (s : PyStr) : Option JVal :=
  match parseJVal (s.length + 1) (skipJsonWs s) with
  | none => none
  | some (v, rest) => if skipJsonWs rest = [] then some v else none

/-- Python `str(x)` on a JSON-derived value.  Exact for strings, booleans,
`None` and integer-lexeme numbers — every case the proved theorems depend on
is the string case; container values are rendered as an abbreviated `repr`
marker (no theorem in this development depends on that rendering). -/
def pyStrOfJVal : JVal → PyStr
  | .str s => s
  | .bool true => S "True"
  | .bool false => S "False"
  | .null => S "None"
  | .num raw => raw
  | .arr _ => S "[...]"
  | .obj _ => S "\x7b...\x7d"

/-! ### `llm.py`: parsing helpers -/

/-- The one kind of exception the embedded code can actually raise outside a
`try`: an `AttributeError` from calling `.strip()` on a truthy non-string
value pulled out of parsed JSON. -/
inductive PExn where
  | attributeError
deriving DecidableEq

/-- Python `(x or "").strip()` where `x` is a JSON-derived value or absent:
falsy values collapse to the empty string, truthy strings are stripped, and a
truthy non-string raises `AttributeError`. -/
def pyOrEmptyStrip (v : Option JVal) : Except PExn PyStr :=
  if jTruthyO v then
    match v with
    | some (.str s) => .ok (pyStrip s)
    | _ => .error .attributeError
  else .ok []

/-- Python `(a or b or "").strip()` for two JSON-derived operands. -/
def pyOr2Strip (v1 v2 : Option JVal) : Except PExn PyStr :=
  if jTruthyO v1 then pyOrEmptyStrip v1
  else pyOrEmptyStrip v2

/-- `llm.py` `_strip_think_blocks`. -/
def stripThinkBlocks (text : PyStr) : PyStr :=
  if pyStrip text = [] then text
  else pyStrip (reSubAll THINK_BLOCK_RE (fun _ => []) text)

/-- `llm.py` `_strip_json_comments`. -/
def stripJsonComments (text : PyStr) : PyStr :=
  if pyStrip text = [] then text
  else reSubAll JSON_LINE_COMMENT_RE (fun _ => []) text

/-- `llm.py` `_fix_newlines_in_json_strings`: replace literal newlines inside
JSON string values by `\n` (CRLF collapsing to one `\n`). -/
def fixNewlinesGo (fuel : Nat) (s : PyStr) (inString escapeNext : Bool) : PyStr :=
  match fuel with
  | 0 => s
  | fuel + 1 =>
    match s with
    | [] => []
    | c :: t =>
      if escapeNext then c :: fixNewlinesGo fuel t inString false
      else if inString then
        if c == '\\' then c :: fixNewlinesGo fuel t true true
        else if c == '"' then c :: fixNewlinesGo fuel t false false
        else if c == '\n' then '\\' :: 'n' :: fixNewlinesGo fuel t true false
        else if c == '\r' then
          match t with
          | '\n' :: t2 => '\\' :: 'n' :: fixNewlinesGo fuel t2 true false
          | _ => '\\' :: 'n' :: fixNewlinesGo fuel t true false
        else c :: fixNewlinesGo fuel t true false
      else if c == '"' then c :: fixNewlinesGo fuel t true false
      else c :: fixNewlinesGo fuel t false false

def fixNewlinesInJsonStrings (s : PyStr) : PyStr := fixNewlinesGo s.length s false false

/-- A parsed `{"name": ..., "arguments": {...}}` tool call: the raw `name`
value (any JSON value in the `<tool_call>` block form, a string in the
regex-fallback form) and the `arguments` dict members. -/
abbrev ToolCall := JVal × List (PyStr × JVal)

/-- One `<tool_call>...</tool_call>` block of `_parse_tool_calls_from_content`
(`none` models both a swallowed exception and a falsy `name`). -/
def toolCallOfBlockMatch (m : REFound) : Option ToolCall :=
  match pyJsonLoads (stripJsonComments (pyStrip ((grpGet m.groups 1).getD []))) with
  | some (JVal.obj kvs) =>
    let obj := JVal.obj kvs
    let name := jGet obj (S "name")
    let args0 := jGet obj (S "arguments")
    let args? : Option (List (PyStr × JVal)) :=
      match args0 with
      | some (.str s) =>
        if pyStrip s = [] then some []
        else
          match pyJsonLoads s with
          | none => none
          | some (.obj kvs2) => some kvs2
          | some _ => some []
      | some (.obj kvs2) => some kvs2
      | some _ => some []
      | none => some []
    match args?, name with
    | some kvs2, some nv => if jTruthy nv then some (nv, kvs2) else none
    | _, _ => none
  | _ => none

/-- One `_JSON_TOOL_RE` fallback match of `_parse_tool_calls_from_content`. -/
def toolCallOfJsonToolMatch (m : REFound) : Option ToolCall :=
  let name := pyStrip ((grpGet m.groups 1).getD [])
  let argsStr := stripJsonComments (pyStrip ((grpGet m.groups 2).getD []))
  let args? : Option (List (PyStr × JVal)) :=
    if argsStr = [] then some []
    else
      match pyJsonLoads argsStr with
      | none => none
      | some (.obj kvs) => some kvs
      | some _ => some []
  match args? with
  | none => none
  | some kvs => if name ≠ [] then some (.str name, kvs) else none

/-- `llm.py` `_parse_tool_calls_from_content`. -/
def parseToolCallsFromContent (content : PyStr) : List ToolCall :=
  if pyStrip content = [] then []
  else
    let out1 := (reFindIter TOOL_CALL_BLOCK_RE content).filterMap toolCallOfBlockMatch
    if !out1.isEmpty then out1
    else (reFindIter JSON_TOOL_RE content).filterMap toolCallOfJsonToolMatch

/-- `llm.py` `_is_final_message_fluff` generic compliance phrases. -/
def fluffPhrases : List PyStr :=
  [S "根据用户指示", S "仅输出三种", S "严格遵守", S "以符合规则", S "符合规则",
   S "指定格式", S "都将严格遵守", S "任务已完成", S "任务已完成。", S "已执行。",
   S "已执行完毕"]

/-- `llm.py` `_is_final_message_fluff` domain keywords. -/
def fluffKeywords : List PyStr :=
  [S "巡检", S "结果", S "正常", S "异常", S "状态", S "运行", S "建议",
   S "docker", S "服务", S "容器", S "用户", S "权限"]

/-- The `_is_final_message_fluff` Markdown-table acceptance condition on the
stripped message (the first `if` of the function body). -/
def fluffTableCond (s : PyStr) : Bool :=
  pyContains s ['|'] &&
    (pyContains s ['\n'] || pyContains s (S "---") || decide (3 ≤ pyCountChar s '|')) &&
    decide (30 < s.length)

/-- `llm.py` `_is_final_message_fluff`. -/
def isFinalMessageFluff (message : PyStr) : Bool :=
  if pyStrip message = [] then true
  else
    let s := pyStrip message
    if fluffTableCond s then false
    else if fluffPhrases.any (fun p => pyContains s p) then true
    else if s.length < 25 && !(fluffKeywords.any (fun k => pyContains s k)) then true
    else false

/-- `llm.py` `_looks_like_final_summary`. -/
def looksLikeFinalSummary (content : PyStr) : Bool :=
  if pyStrip content = [] || decide (content.length < 50) || decide (8000 < content.length) then
    false
  else
    let c := pyStrip content
    if pyStartsWith c (S "\x7b") || pyStartsWith c (S "<tool_call") ||
        pyContains (c.take 100) (S "\"action\"") then false
    else if [S "我将", S "我会执行", S "请指定", S "请告知", S "? ", S "？"].any
        (fun p => pyContains c p) then false
    else if pyContains c (S "Summarize") || pyContains (pyLower c) (S "summary") ||
        pyContains c (S "总结") then true
    else if ([S "Docker", S "docker", S "服务", S "容器"].any (fun p => pyContains c p)) &&
        ([S "running", S "active", S "Up", S "状态", S "运行"].any (fun p => pyContains c p)) then
      true
    else if pyContains (pyLower c) (S "command") &&
        (pyContains (pyLower c) (S "result") || pyContains (pyLower c) (S "output") ||
          pyContains c (S "执行")) then true
    else false

/-! ### `llm.py`: `_parse_self_coded_action` -/

/-- The canonical action dicts the parser constructs. -/
def mkListAssetsAction : JVal :=
  .obj [(S "action", .str (S "list_assets"))]

def mkExecAction (asset cmd : PyStr) : JVal :=
  .obj [(S "action", .str (S "execute_command")), (S "asset", .str asset),
    (S "command", .str cmd)]

def mkFinalAction (msg : PyStr) : JVal :=
  .obj [(S "action", .str (S "final")), (S "message", .str msg)]

/-- The `name`/`arguments` → action mapping applied when exactly one tool call
was parsed (both in the main path and the tail-scan path of
`_parse_self_coded_action`).  `.ok none` means "fall through to the next
strategy"; the `.strip()` calls raise on truthy non-string JSON values. -/
def toolCallToAction (tc : ToolCall) : Except PExn (Option JVal) := do
  let name ← pyOrEmptyStrip (some tc.1)
  if name = S "list_assets" then
    return some mkListAssetsAction
  else if name = S "execute_command" then
    let args := JVal.obj tc.2
    let asset ← pyOr2Strip (jGet args (S "asset_name")) (jGet args (S "asset"))
    let cmd ← pyOrEmptyStrip (jGet args (S "command"))
    if asset ≠ [] ∨ cmd ≠ [] then
      return some (mkExecAction asset cmd)
    else
      return none
  else
    return none

/-- One candidate text of `_try_load_action`'s inner loop: parse after comment
stripping; a dict with a truthy `action` is returned unchanged, else a dict
whose `response` is present and non-null becomes a `final` action. -/
def tryLoadCandidate (t : PyStr) : Option JVal :=
  match pyJsonLoads (stripJsonComments t) with
  | some (JVal.obj kvs) =>
    let obj := JVal.obj kvs
    if jTruthyO (jGet obj (S "action")) then some obj
    else
      match jGet obj (S "response") with
      | some JVal.null => none
      | none => none
      | some v => some (mkFinalAction (pyStrip (pyStrOfJVal v)))
  | _ => none

/-- `_try_load_action`: try the text as-is, after newline escaping, and after
trailing-comma removal. -/
def tryLoadAction (s : PyStr) : Option JVal :=
  (tryLoadCandidate s).orElse (fun _ =>
    (tryLoadCandidate (fixNewlinesInJsonStrings s)).orElse (fun _ =>
      tryLoadCandidate
        (reSubAll TRAILING_COMMA_RE (fun g => (grpGet g 1).getD []) s)))

/-- Brace-balanced segment starting at the head of `s` (which is `{`): scan
until the matching close brace, returning the segment. -/
def braceSegmentGo (s : PyStr) (depth : Nat) (acc : PyStr) : Option PyStr :=
  match s with
  | [] => none
  | c :: t =>
    if c == '\x7b' then braceSegmentGo t (depth + 1) (c :: acc)
    else if c == '\x7d' then
      if depth = 1 then some ((c :: acc).reverse)
      else braceSegmentGo t (depth - 1) (c :: acc)
    else braceSegmentGo t depth (c :: acc)

/-- Python negative-index tail slice `s[-n:]`. -/
def pyTail (s : PyStr) (n : Nat) : PyStr := s.drop (s.length - n)

/-- The runaway-`message` recovery scan: collect characters from the opening
quote of the `message` value to the first unescaped `"` (or end of text),
honouring `\n`, `\t`, `\"`, `\\`. -/
def recoverMsgGo (s : PyStr) (acc : PyStr) : PyStr :=
  match s with
  | [] => acc.reverse
  | c :: t =>
    if c == '\\' then
      match t with
      | [] => (c :: acc).reverse
      | e :: t2 =>
        if e == 'n' then recoverMsgGo t2 ('\n' :: acc)
        else if e == 't' then recoverMsgGo t2 ('\t' :: acc)
        else if e == '"' then recoverMsgGo t2 ('"' :: acc)
        else if e == '\\' then recoverMsgGo t2 ('\\' :: acc)
        else recoverMsgGo t2 (e :: c :: acc)
    else if c == '"' then acc.reverse
    else recoverMsgGo t (c :: acc)

/-- Monadic first-some over a list of candidate texts. -/
def firstSomeM (l : List PyStr) (f : PyStr → Except PExn (Option JVal)) :
    Except PExn (Option JVal) :=
  match l with
  | [] => .ok none
  | x :: rest => do
    match (← f x) with
    | some o => return some o
    | none => firstSomeM rest f

/-- One tail attempt of the long-text recovery loop in
`_parse_self_coded_action`. -/
def tailAttempt (tail : PyStr) : Except PExn (Option JVal) := do
  let o1 : Option JVal :=
    if pyContains tail ['\x7b'] && pyContains tail (S "\"action\"") then
      tryLoadAction (tail.drop ((pyFindChar tail '\x7b').getD 0))
    else none
  match o1 with
  | some o => return some o
  | none =>
    match parseToolCallsFromContent tail with
    | [tc] => toolCallToAction tc
    | _ => return none

/-- `llm.py` `_parse_self_coded_action`.  Returns `.ok none` for "no action",
`.ok (some a)` for a parsed action dict, and `.error` when the Python original
would raise (an `AttributeError` from `.strip()` on a truthy non-string
`name`/`asset_name`/`asset`/`command`/`action`/`message` value). -/
def parseSelfCodedAction (content : PyStr) : Except PExn (Option JVal) := do
  if pyStrip content = [] then
    return none
  let raw := pyStrip (stripThinkBlocks content)
  if raw = [] then
    return none
  -- 1) <tool_call> / {"name": ..., "arguments": ...} forms
  let stage1 ← (match parseToolCallsFromContent raw with
    | [tc] => toolCallToAction tc
    | _ => .ok none)
  match stage1 with
  | some o => return some o
  | none =>
  -- 2) the entire text as one JSON object
  match tryLoadAction raw with
  | some o => return some o
  | none =>
  -- 3) the first brace-balanced segment, when `"action"` occurs
  let seg3 : Option JVal :=
    match pyFindChar raw '\x7b' with
    | none => none
    | some start =>
      if pyContains raw (S "\"action\"") then
        match braceSegmentGo (raw.drop start) 0 [] with
        | some seg => tryLoadAction seg
        | none => none
      else none
  match seg3 with
  | some o => return some o
  | none =>
  -- 4) fenced code blocks
  match (reFindIter JSON_CODE_BLOCK_RE raw).findSome?
      (fun m => tryLoadAction (pyStrip ((grpGet m.groups 1).getD []))) with
  | some o => return some o
  | none =>
  -- 5) from the first `{` to the end
  let stage5 : Option JVal :=
    if pyContains raw ['\x7b'] && pyContains raw (S "\"action\"") then
      tryLoadAction (raw.drop ((pyFindChar raw '\x7b').getD 0))
    else none
  match stage5 with
  | some o => return some o
  | none =>
  -- 6) tails of long texts
  let stage6 ← (if 400 < raw.length then
      firstSomeM [pyTail raw 2000, pyTail raw 1200, pyTail raw 800, pyTail raw 500]
        tailAttempt
    else .ok none)
  match stage6 with
  | some o => return some o
  | none =>
  -- 7) balanced segments at each `{"action": "final"` occurrence
  match (reFindIter FINAL_ACTION_RE raw).findSome?
      (fun m =>
        match braceSegmentGo (m.matched ++ m.rest) 0 [] with
        | some seg => tryLoadAction seg
        | none => none) with
  | some o => return some o
  | none =>
  -- 8) runaway-message recovery
  match reSearch MSG_PREFIX_RE raw with
  | some m =>
    if pyContains m.pre (S "final") || pyContains m.pre (S "\"action\"") then
      let msg := pyStrip (recoverMsgGo m.rest [])
      if msg ≠ [] ∧ 5 < msg.length ∧ isFinalMessageFluff msg = false then
        return some (mkFinalAction msg)
      else
        return none
    else
      return none
  | none => return none

/-! ### `llm.py`: table builders used by the final branch of the loop -/

/-- A conversation message. -/
structure Msg where
  role : PyStr
  content : PyStr
deriving DecidableEq

/-- `llm.py` `_parse_getent_passwd_to_table`. -/
def parseGetentPasswdToTable (toolResult : PyStr) : Option PyStr :=
  if toolResult = [] then none
  else if pyContains toolResult (S "link/ether") || pyContains toolResult (S "scope global") ||
      (pyContains toolResult (S "inet ") && pyContains toolResult (S "mtu")) then none
  else
    let lines := pySplitChar (pyStrip toolResult) '\n'
    let invalidPrefixes := [S "link", S "inet", S "valid", S "brd", S "scope",
      S "altname", S "state ", S "group "]
    let users := lines.filterMap (fun line0 =>
      let line := pyStrip line0
      if line = [] || pyStartsWith line (S "#") || pyStartsWith line (S "<") then none
      else
        let parts := pySplitChar line ':'
        if parts.length ≠ 7 then none
        else
          let username := pyStrip ((parts.get? 0).getD [])
          let uid := pyStrip ((parts.get? 2).getD [])
          let gid := pyStrip ((parts.get? 3).getD [])
          let shell := pyStrip ((parts.get? 6).getD [])
          if username = [] || !pyIsDigit uid || !pyIsDigit gid then none
          else if invalidPrefixes.any (fun p => pyStartsWith (pyLower username) p) then none
          else if !pyContains shell (S "/") || pyContains username (S " ") then none
          else some (username, uid, gid, shell))
    if users.length < 2 then none
    else
      some (pyJoinNl ([S "| 用户名 | UID | GID | Shell |", S "|--------|-----|-----|-------|"] ++
        users.map (fun u =>
          S "| " ++ u.1 ++ S " | " ++ u.2.1 ++ S " | " ++ u.2.2.1 ++ S " | " ++ u.2.2.2 ++ S " |")))

/-- `llm.py` `_parse_df_h_line`: `(size, used, avail, use_pct, mount)`. -/
def parseDfHLine (line0 : PyStr) : Option (PyStr × PyStr × PyStr × PyStr × PyStr) :=
  let line := pyStrip line0
  if !pyStartsWith line (S "/dev") || !pyContains line (S "%") then none
  else
    let parts := pySplitWs line
    if parts.length < 5 then none
    else
      match parts.drop (parts.length - 5) with
      | [size, used, avail, usePct, mount] =>
        if !pyContains usePct (S "%") then none
        else some (size, used, avail, usePct, mount)
      | _ => none

/-- `llm.py` `_build_df_table_from_messages`. -/
def buildDfTableFromMessages (messages : List Msg) : Option PyStr :=
  let rows := messages.flatMap (fun msg =>
    if msg.role ≠ S "user" then []
    else
      (reFindIter TOOL_RESULT_ASSET_RE msg.content).filterMap (fun m =>
        let asset := pyStrip ((grpGet m.groups 1).getD [])
        let body := (grpGet m.groups 2).getD []
        if !pyContains (pyLower body) (S "df") && !pyContains body (S "Filesystem") &&
            !pyContains body (S "文件系统") then none
        else
          ((pySplitChar body '\n').findSome? parseDfHLine).map (fun r => (asset, r))))
  if rows.length < 2 then none
  else
    some (pyJoinNl ([S "| 资产 | 总空间 | 已用 | 可用 | 使用率 | 挂载点 |",
      S "|------|--------|------|------|--------|--------|"] ++
      rows.map (fun ar =>
        S "| " ++ ar.1 ++ S " | " ++ ar.2.1 ++ S " | " ++ ar.2.2.1 ++ S " | " ++
          ar.2.2.2.1 ++ S " | " ++ ar.2.2.2.2.1 ++ S " | " ++ ar.2.2.2.2.2 ++ S " |")))

/-! ### `llm.py`: `chat_with_self_coded_fc`

The model transport (`chat_once`) is an oracle indexed by a global call
counter, so consecutive calls on the same conversation may answer
differently, as a real service can.  `chat_once` always returns an already
stripped text (it strips `content` and falls back to stripped `reasoning`),
which the oracle wrapper reproduces.  The executor-side effects live in the
dispatch callback, which threads the run state (chat-call counter,
cancellation-check counter, and the `on_command_start`/`on_command` callback
events, in order). -/

/-- The keyword arguments the loop passes to `chat_once` (temperature in
tenths: `0.5` ↦ `5`). -/
structure ChatKw where
  maxTokens : Option Nat
  temperatureTenths : Option Nat
deriving DecidableEq

/-- The command-callback events a run emits. -/
inductive CmdEvent where
  | start (assetName command : PyStr)
  | done (assetName command result : PyStr)
deriving DecidableEq

/-- Mutable run context threaded through the loop and dispatch. -/
structure RunSt where
  chatCalls : Nat
  cancelChecks : Nat
  events : List CmdEvent
deriving DecidableEq

/-- The initial run context. -/
def RunSt.init : RunSt := ⟨0, 0, []⟩

/-- The model oracle: answer of the `chatCalls`-th transport call. -/
abbrev ChatOracle := Nat → List Msg → ChatKw → PyStr

/-- `chat_once` (returns stripped text, counts one transport call). -/
def chatOnce (oracle : ChatOracle) (st : RunSt) (msgs : List Msg) (kw : ChatKw) :
    PyStr × RunSt :=
  (pyStrip (oracle st.chatCalls msgs kw), { st with chatCalls := st.chatCalls + 1 })

/-- The dispatch callback type: action dict and run context to
`(next user message, is_final, new context)`, or a raised exception. -/
abbrev DispatchFn := JVal → RunSt → Except PExn (PyStr × Bool × RunSt)

/-- The format-reminder nudge text of `chat_with_self_coded_fc`. -/
def nudgeContentText : PyStr :=
  S "你刚才的回复不是规定的 action 格式。请只输出以下三种之一（可用 JSON 或 <tool_call>）：\n" ++
  S "1) \x7b\"action\": \"list_assets\"\x7d 或 <tool_call>\x7b\"name\":\"list_assets\",\"arguments\":\x7b\x7d\x7d</tool_call>\n" ++
  S "2) \x7b\"action\": \"execute_command\", \"asset\": \"资产名\", \"command\": \"具体命令\"\x7d 或 <tool_call>\x7b\"name\":\"execute_command\",\"arguments\":\x7b\"asset_name\":\"资产名\",\"command\":\"具体命令\"\x7d\x7d</tool_call>\n" ++
  S "3) \x7b\"action\": \"final\", \"message\": \"本次任务的一两句话中文总结\"\x7d（message 必须是真实结论，不要空话）"

/-- The professional-summary re-ask text of the final branch. -/
def summaryNudgeText : PyStr :=
  S "请根据上述 <tool_result> 和用户指令，用 1～2 句话给出专业总结（如：服务/命令执行状态、是否异常、建议），不要只回复「任务已完成」或空话。若结果为用户列表、容器列表等可表格化的数据，请在 message 中用 Markdown 表格汇总，**表格中每一行必须来自 <tool_result> 中的实际输出，禁止添加未在输出中出现的用户/容器等**。示例：| 用户 | UID | Shell |\\n|------|-----|-------|\\n| root | 0 | /bin/bash |。只输出 \x7b\"action\": \"final\", \"message\": \"你的总结\"\x7d。"

/-- The stricter one-line-JSON re-ask text of the final branch. -/
def shortNudgeText : PyStr :=
  S "只回复一行 JSON，不要任何推理或解释：\x7b\"action\": \"final\", \"message\": \"根据上方 <tool_result> 写 1～2 句总结或表格，表格仅包含输出中实际出现的用户/容器，禁止臆造\"\x7d"

/-- The fallback completion message. -/
def genericDoneText : PyStr := S "任务已完成。"

/-- The round-budget exhaustion message. -/
def roundBudgetText : PyStr := S "已达到最大轮数，任务未完成。"

/-- The final branch of `chat_with_self_coded_fc` (everything under
`if is_final:`): table rewrites, long-reasoning override, and up to two
summary re-asks before the generic fallback. -/
def fcFinalBranch (oracle : ChatOracle) (action : JVal) (content userMsg : PyStr)
    (messages : List Msg) (st : RunSt) :
    Except PExn (PyStr × List Msg × RunSt) := do
  let fm0 := pyStrip userMsg
  let finalMsg0 ← (if fm0 ≠ [] then .ok fm0 else pyOrEmptyStrip (jGet action (S "message")))
  let firstUser := ((messages.find? (fun m => m.role == S "user")).map
    (fun m => m.content.take 500)).getD []
  let isUserListQuery := [S "用户", S "权限", S "passwd", S "getent", S "账号",
    S "账户"].any (fun k => pyContains firstUser k)
  let isDiskDfQuery := [S "df", S "磁盘", S "空间", S "挂载", S "容量",
    S "使用率"].any (fun k => pyContains firstUser k)
  let finalMsg1 :=
    if isUserListQuery then
      match (messages.reverse.filter (fun m =>
          m.role == S "user" && pyContains m.content (S "<tool_result>"))).findSome?
          (fun m => parseGetentPasswdToTable m.content) with
      | some table => S "已查询系统中的用户列表，以下是基于 getent passwd 命令输出的汇总：\n\n" ++ table
      | none => finalMsg0
    else if isDiskDfQuery then
      match buildDfTableFromMessages messages with
      | some table => S "已按资产汇总磁盘使用情况（基于 df 命令输出）：\n\n" ++ table
      | none => finalMsg0
    else finalMsg0
  let finalMsg2 :=
    if 2000 < content.length ∧ pyContains content (S "|") = true ∧
        3 ≤ pyCountChar content '|' ∧
        ((pyContains content (S "用户") || pyContains content (S "UID") ||
          looksLikeFinalSummary content) = true) ∧
        finalMsg1.length < 500 then
      let f := (pyStrip content).take 12000
      if 12000 < content.length then f ++ S "\n\n(以上为摘要，内容已截断。)" else f
    else finalMsg1
  if isFinalMessageFluff finalMsg2 then
    let messages := messages ++ [⟨S "user", summaryNudgeText⟩]
    let (extraA, stA) := chatOnce oracle st messages ⟨some 8192, some 2⟩
    let extra0 := pyStrip extraA
    let (extra, st1) ←
      (if extra0 ≠ [] ∧ pyStartsWith extra0 (S "\x7b\"action") = true ∧ extra0.length < 80 then do
        let ea ← parseSelfCodedAction extra0
        match ea with
        | none =>
          let (e2, st2) := chatOnce oracle stA messages ⟨some 8192, some 2⟩
          .ok (pyStrip e2, st2)
        | some _ => .ok (extra0, stA)
      else .ok (extra0, stA))
    let finalMsg3 ←
      (if extra ≠ [] then do
        let ea ← parseSelfCodedAction extra
        let fm1 ← (match ea with
          | some a => do
            let actS ← pyOrEmptyStrip (jGet a (S "action"))
            if actS = S "final" then do
              let extraMsg ← pyOrEmptyStrip (jGet a (S "message"))
              if extraMsg ≠ [] ∧ isFinalMessageFluff extraMsg = false then .ok extraMsg
              else .ok finalMsg2
            else .ok finalMsg2
          | none => .ok finalMsg2)
        if isFinalMessageFluff fm1 = true ∧ 400 < extra.length ∧
            pyStartsWith (pyStrip extra) (S "\x7b") = false then
          if looksLikeFinalSummary extra ||
              (pyContains extra (S "|") && decide (3 ≤ pyCountChar extra '|') &&
                decide (100 < extra.length)) then
            .ok (pyStrip extra)
          else .ok fm1
        else .ok fm1
      else .ok finalMsg2)
    let (finalMsg4, messages, st2) ←
      (if isFinalMessageFluff finalMsg3 = true ∧ extra ≠ [] ∧ 400 < extra.length ∧
          pyStartsWith (pyStrip extra) (S "\x7b") = false then do
        let messages := messages ++ [⟨S "user", shortNudgeText⟩]
        let (e20, st2) := chatOnce oracle st1 messages ⟨some 8192, some 1⟩
        let extra2 := pyStrip e20
        if extra2 ≠ [] then do
          let ea2 ← parseSelfCodedAction extra2
          let fm ← (match ea2 with
            | some a => do
              let actS ← pyOrEmptyStrip (jGet a (S "action"))
              if actS = S "final" then do
                let m2 ← pyOrEmptyStrip (jGet a (S "message"))
                if m2 ≠ [] ∧ isFinalMessageFluff m2 = false then .ok m2
                else .ok finalMsg3
              else .ok finalMsg3
            | none => .ok finalMsg3)
          let fm2 :=
            if isFinalMessageFluff fm = true ∧ 100 < extra2.length then
              if looksLikeFinalSummary extra2 ||
                  (pyContains extra2 (S "|") && decide (3 ≤ pyCountChar extra2 '|')) then
                pyStrip extra2
              else fm
            else fm
          .ok (fm2, messages, st2)
        else .ok (finalMsg3, messages, st2)
      else .ok (finalMsg3, messages, st1))
    let finalMsg5 := if isFinalMessageFluff finalMsg4 then genericDoneText else finalMsg4
    return (finalMsg5, messages, st2)
  else
    return (finalMsg2, messages, st)

/-- The outcome of a `chat_with_self_coded_fc` run: the reply, the number of
rounds started, the conversation, and the final run context. -/
structure FcOut where
  reply : PyStr
  rounds : Nat
  msgs : List Msg
  st : RunSt

/-- The single parse retry of the loop: when the first parse found nothing
but the text contains a `\x7b` and `"action"`, re-parse from the first brace. -/
def fcRetryParse (content : PyStr) (action0 : Option JVal) : Except PExn (Option JVal) :=
  match action0 with
  | some a => .ok (some a)
  | none =>
    if content ≠ [] ∧ pyContains content (S "\x7b") = true ∧
        pyContains content (S "\"action\"") = true then
      parseSelfCodedAction (content.drop ((pyFindChar content '\x7b').getD 0))
    else .ok none

/-- The loop body of `chat_with_self_coded_fc`; `fuel` is the number of rounds
still allowed, `roundIdx` the 0-based index of the current round (`r`). -/
def chatSelfCodedGo (oracle : ChatOracle) (dispatchF : DispatchFn) (fuel roundIdx nudgeCount : Nat)
    (messages : List Msg) (st : RunSt) : Except PExn FcOut :=
  match fuel with
  | 0 => .ok ⟨roundBudgetText, roundIdx, messages, st⟩
  | fuel + 1 => do
    let kw : ChatKw := ⟨some 8192, some (if roundIdx = 0 then 5 else 3)⟩
    let (c0, st) := chatOnce oracle st messages kw
    let content0 := pyStrip c0
    let (content, st) :=
      if content0 = [] then
        let kw2 : ChatKw := ⟨some 8192, some (if roundIdx = 0 then 7 else 3)⟩
        let (c1, st1) := chatOnce oracle st messages kw2
        (pyStrip c1, st1)
      else (content0, st)
    let action0 ← parseSelfCodedAction content
    let action ← fcRetryParse content action0
    match action with
    | none =>
      let c := pyStrip content
      if 1 ≤ roundIdx ∧ c ≠ [] ∧ looksLikeFinalSummary c = true then
        .ok ⟨c, roundIdx + 1, messages, st⟩
      else if nudgeCount < 2 then
        chatSelfCodedGo oracle dispatchF fuel (roundIdx + 1) (nudgeCount + 1)
          (messages ++ [⟨S "assistant", content⟩, ⟨S "user", nudgeContentText⟩]) st
      else
        .ok ⟨(if content = [] then S "模型未返回有效 JSON 动作。" else content),
          roundIdx + 1, messages, st⟩
    | some action =>
      let messages := messages ++ [⟨S "assistant", content⟩]
      let (userMsg, isFinal, st) ← dispatchF action st
      if isFinal then do
        let (finalMsg, messages, st) ← fcFinalBranch oracle action content userMsg messages st
        .ok ⟨finalMsg, roundIdx + 1, messages, st⟩
      else
        chatSelfCodedGo oracle dispatchF fuel (roundIdx + 1) nudgeCount
          (messages ++ [⟨S "user", if userMsg = [] then S "(无输出)" else userMsg⟩]) st

/-- The `max_rounds` default of `chat_with_self_coded_fc` (no caller overrides it). -/
def FC_MAX_ROUNDS : Nat := 50

/-- `llm.py` `chat_with_self_coded_fc` at its default `max_rounds = 50`. -/
def chatWithSelfCodedFc (oracle : ChatOracle) (dispatchF : DispatchFn)
    (messages : List Msg) : Except PExn FcOut :=
  chatSelfCodedGo oracle dispatchF FC_MAX_ROUNDS 0 0 messages RunSt.init


/-! ### `orchestrator.py` -/

/-- `config.py` `AssetConfig` (the fields the embedded code reads). -/
structure AssetConfig where
  name : PyStr
  host : PyStr
  port : Nat
  username : PyStr
  password : Option PyStr
  privateKeyPath : Option PyStr
deriving DecidableEq

/-- `AssetConfig.get_display`. -/
def AssetConfig.getDisplay (a : AssetConfig) : PyStr :=
  a.name ++ S " (" ++ a.username ++ S "@" ++ a.host ++ S ":" ++ natToStr a.port ++ S ")"

/-- `config.py` `AppConfig` (only the asset list is read by the embedded code). -/
structure AppConfig where
  assets : List AssetConfig
deriving DecidableEq

/-- `ssh_executor.py` `get_asset_by_name`: first asset with the given name. -/
def getAssetByName (config : AppConfig) (name : PyStr) : Option AssetConfig :=
  config.assets.find? (fun a => a.name == name)

/-- `ssh_executor.py` `list_assets_display`. -/
def listAssetsDisplay (config : AppConfig) : PyStr :=
  if config.assets.isEmpty then
    S "当前没有配置任何 Linux 资产，请在 config.yaml 的 assets 中添加。"
  else
    pyJoinNl (config.assets.map (fun a =>
      S "- " ++ a.name ++ S ": " ++ a.username ++ S "@" ++ a.host ++ S ":" ++ natToStr a.port))

/-- `orchestrator.py` `_looks_dangerous_command`. -/
def looksDangerousCommand (cmd : PyStr) : Bool :=
  let s := pyLower (pyStrip cmd)
  if s = [] then true
  else DANGEROUS_PATTERNS.any (fun p => reSearchB p s)

/-- Python `str.rfind` for a single character. -/
def pyRFindChar (s : PyStr) (c : Char) : Option Nat :=
  match pyFindChar s.reverse c with
  | none => none
  | some i => some (s.length - 1 - i)

/-- `orchestrator.py` `_extract_json`: parse the whole text, else the slice
from the first `{` to the last `}` (`none` models every raised exception,
which the single caller catches). -/
def extractJson (text : PyStr) : Option JVal :=
  let t := pyStrip text
  if t = [] then none
  else
    match pyJsonLoads t with
    | some v => some v
    | none =>
      match pyFindChar t '\x7b', pyRFindChar t '\x7d' with
      | some st, some en =>
        if st < en then pyJsonLoads ((t.drop st).take (en + 1 - st)) else none
      | _, _ => none

/-- `orchestrator.py` `_resolve_target_assets`:
`(some names, explicit)` with `none` meaning "ask the user". -/
def resolveTargetAssets (config : AppConfig) (instruction0 : PyStr) :
    Option (List PyStr) × Bool :=
  let instruction := pyStrip instruction0
  let assetNames := config.assets.map (fun a => a.name)
  if assetNames.isEmpty then (some [], true)
  else if [S "全部", S "所有", S "每台"].any (fun k => pyContains instruction k) then
    (some assetNames, true)
  else
    match assetNames.filter (fun name => pyContains instruction name) with
    | m :: _ => (some [m], true)
    | [] => (none, false)

/-- `orchestrator.py` `_TOOL_RESULT_MAX_CHARS`. -/
def TOOL_RESULT_MAX_CHARS : Nat := 12000

/-- `orchestrator.py` `_wrap_tool_result` (a `none` text models Python `None`;
`text or "(无输出)"` turns both `None` and the empty string into the
placeholder). -/
def wrapToolResult (text : Option PyStr) (asset : Option PyStr) : PyStr :=
  let t := match text with | some t => t | none => []
  let s0 := if t = [] then S "(无输出)" else t
  let s :=
    if TOOL_RESULT_MAX_CHARS < s0.length then
      s0.take TOOL_RESULT_MAX_CHARS ++
        S "\n\n(以上为命令输出前 " ++ natToStr TOOL_RESULT_MAX_CHARS ++
        S " 字，已截断；完整共 " ++ natToStr t.length ++
        S " 字。请根据上述信息输出下一个 action：继续执行命令或 final 总结。)"
    else s0
  match asset with
  | some a =>
    if a ≠ [] then
      S "<tool_result asset=\"" ++ a ++ S "\">\n" ++ s ++ S "\n</tool_result>"
    else S "<tool_result>\n" ++ s ++ S "\n</tool_result>"
  | none => S "<tool_result>\n" ++ s ++ S "\n</tool_result>"

/-- The closure context of `orchestrator.py`'s `dispatch`: the loaded config,
the MCP switch/URL (the URL as the already stripped `mcp_tool_url`), an oracle
for `_call_mcp_tool` (which never raises: its errors are encoded as text) and
an oracle for `ssh_executor.execute_on_asset` (likewise). -/
structure DispatchCtx where
  config : AppConfig
  useMcp : Bool
  mcpUrl : PyStr
  mcpOracle : PyStr → JVal → PyStr
  executor : AssetConfig → PyStr → PyStr

/-- `orchestrator.py` `dispatch` (the self-coded-agent action dispatcher).
The cancellation token is a stream of `is_set()` read results indexed by the
run's check counter; the `on_command_start`/`on_command` callbacks are
recorded as events. -/
def orchDispatch (ctx : DispatchCtx) (cancel : Nat → Bool) (action : JVal)
    (st : RunSt) : Except PExn (PyStr × Bool × RunSt) := do
  let act ← pyOrEmptyStrip (jGet action (S "action"))
  if act = S "list_assets" then
    if ctx.useMcp ∧ ctx.mcpUrl ≠ [] then
      let result := ctx.mcpOracle (S "list_assets") (JVal.obj [])
      return (wrapToolResult (some result) none, false, st)
    else
      return (wrapToolResult (some (listAssetsDisplay ctx.config)) none, false, st)
  else if act = S "execute_command" then
    let isSet := cancel st.cancelChecks
    let st := { st with cancelChecks := st.cancelChecks + 1 }
    if isSet then
      return (S "已按用户请求停止。", true, st)
    let assetName ← pyOrEmptyStrip (jGet action (S "asset"))
    let command0 ← pyOrEmptyStrip (jGet action (S "command"))
    let command := pyReplace (pyReplace command0 (S "\\n") (S "\n")) (S "\\t") (S "\t")
    if assetName = [] ∨ command = [] then
      return (wrapToolResult (some (S "action execute_command 缺少 asset 或 command。")) none,
        false, st)
    if assetName = S "资产名称" ∨ pyStrip command = S "shell 命令" then
      return (wrapToolResult (some (S "请使用用户已选定的资产名称（如 linux_222）和具体命令（如 getent passwd），不要使用占位符「资产名称」「shell 命令」。")) none,
        false, st)
    if ctx.useMcp ∧ ctx.mcpUrl ≠ [] then
      let st := { st with events := st.events ++ [CmdEvent.start assetName command] }
      let result := ctx.mcpOracle (S "execute_command")
        (JVal.obj [(S "asset_name", .str assetName), (S "command", .str command)])
      let st := { st with events := st.events ++ [CmdEvent.done assetName command result] }
      return (wrapToolResult (some (if result = [] then S "(无输出)" else result))
        (some assetName), false, st)
    match getAssetByName ctx.config assetName with
    | none =>
      return (wrapToolResult (some (S "未找到资产 '" ++ assetName ++ S "'。可用资产：\n" ++
        listAssetsDisplay ctx.config)) none, false, st)
    | some asset =>
      let st := { st with events := st.events ++ [CmdEvent.start assetName command] }
      let result := ctx.executor asset command
      let st := { st with events := st.events ++ [CmdEvent.done assetName command result] }
      return (wrapToolResult (some (if result = [] then S "(无输出)" else result))
        (some assetName), false, st)
  else if act = S "final" then
    let msg ← pyOrEmptyStrip (jGet action (S "message"))
    return (msg, true, st)
  else
    return (wrapToolResult (some (S "未知 action: " ++ act ++
      S "，请输出 execute_command / list_assets / final 之一。")) none, false, st)

/-! ### `orchestrator.py`: `_run_no_tools_mode` -/

/-- `_NO_TOOLS_MAX_ROUNDS`. -/
def NO_TOOLS_MAX_ROUNDS : Nat := 30

/-- The outcome of a no-tools-mode run. -/
structure NtOut where
  reply : PyStr
  rounds : Nat
  msgs : List Msg
  st : RunSt
  modelReplies : List (Nat × PyStr)

/-- The refusal text the no-tools loop returns for a dangerous command. -/
def ntDangerousReply (cmd : PyStr) : PyStr :=
  S "为保证安全，已拒绝执行疑似危险命令。\n\n命令：" ++ cmd ++
  S "\n\n请改写指令或避免危险操作（如 rm -rf、mkfs、dd 等）。"

/-- The JSON-parse-failure reply of the no-tools loop.  The trailing
`解析错误` detail renders the raised exception and is abstracted to a fixed
marker (no theorem depends on it). -/
def ntParseFailReply (planText : PyStr) : PyStr :=
  S "模型返回的 JSON 无法解析。\n\n原始输出：\n" ++
  (if pyStrip planText = [] then S "(空)" else pyStrip planText) ++
  S "\n\n解析错误：" ++ S "(JSONDecodeError)"

/-- One round plus the continuation of `_run_no_tools_mode`'s `for` loop.
`roundIdx` is the 0-based `round_index`. -/
def ntLoopGo (oracle : ChatOracle) (executor : AssetConfig → PyStr → PyStr)
    (cancel : Nat → Bool) (assetName : PyStr) (asset : AssetConfig)
    (fuel roundIdx : Nat) (messages : List Msg) (st : RunSt)
    (replies : List (Nat × PyStr)) : Except PExn NtOut :=
  match fuel with
  | 0 => .ok ⟨S "已达到多轮对话上限，任务未在限定轮数内完成。请缩小指令范围或分步执行。",
      roundIdx, messages, st, replies⟩
  | fuel + 1 => do
    let isSet := cancel st.cancelChecks
    let st := { st with cancelChecks := st.cancelChecks + 1 }
    if isSet then
      return ⟨S "已按用户请求停止。", roundIdx + 1, messages, st, replies⟩
    let (p0, st) := chatOnce oracle st messages ⟨some 1024, none⟩
    let (planText, st) :=
      if pyStrip p0 = [] then chatOnce oracle st messages ⟨some 1024, none⟩
      else (p0, st)
    let replies := if planText ≠ [] then replies ++ [(roundIdx + 1, planText)] else replies
    if pyStrip planText = [] then
      return ⟨S "模型本轮未返回有效内容（可能服务偶发空响应）。请重试本次指令，或检查模型服务是否正常。",
        roundIdx + 1, messages, st, replies⟩
    match extractJson planText with
    | none => return ⟨ntParseFailReply planText, roundIdx + 1, messages, st, replies⟩
    | some plan => do
      let conclusion ← pyOrEmptyStrip (jGet plan (S "conclusion"))
      if (jGet plan (S "done") == some (JVal.bool true)) ∧ conclusion ≠ [] then
        return ⟨conclusion, roundIdx + 1, messages, st, replies⟩
      if conclusion ≠ [] ∧ jTruthyO (jGet plan (S "commands")) = false then
        return ⟨conclusion, roundIdx + 1, messages, st, replies⟩
      let commands :=
        match jGet plan (S "commands") with
        | some (JVal.arr l) => l
        | _ => ([] : List JVal)
      let item? :=
        match commands.head? with
        | some it => if jTruthy it then some it else none
        | none => none
      match item? with
      | some (JVal.obj kvs) => do
        let cmd ← pyOrEmptyStrip (jGet (JVal.obj kvs) (S "command"))
        if cmd = [] then
          ntLoopGo oracle executor cancel assetName asset fuel (roundIdx + 1)
            (messages ++ [⟨S "user", S "command 为空，请重新输出一条有效命令的 JSON。"⟩]) st replies
        else if looksDangerousCommand cmd then
          return ⟨ntDangerousReply cmd, roundIdx + 1, messages, st, replies⟩
        else
          let st := { st with events := st.events ++ [CmdEvent.start assetName cmd] }
          let result := executor asset cmd
          let st := { st with events := st.events ++ [CmdEvent.done assetName cmd result] }
          let followUp :=
            S "已执行命令：" ++ cmd ++ S "\n\n执行结果：\n" ++
            (if result = [] then S "(无输出)" else result) ++
            S "\n\n请根据上述结果决定下一步。若问题已解决或可给出最终结论，请输出 \x7b\"done\":true,\"conclusion\":\"...\"\x7d；否则请输出 \x7b\"commands\":[\x7b\"command\":\"...\",\"purpose\":\"...\"\x7d]\x7d（仅一条命令）。只输出 JSON。"
          ntLoopGo oracle executor cancel assetName asset fuel (roundIdx + 1)
            (messages ++ [⟨S "user", followUp⟩]) st replies
      | _ =>
        ntLoopGo oracle executor cancel assetName asset fuel (roundIdx + 1)
          (messages ++ [⟨S "user",
            S "你没有输出有效命令。请输出 \x7b\"commands\":[\x7b\"command\":\"...\",\"purpose\":\"...\"\x7d]\x7d 或 \x7b\"done\":true,\"conclusion\":\"...\"\x7d。只输出 JSON。"⟩])
          st replies

/-- `orchestrator.py` `_run_no_tools_mode`. -/
def runNoToolsMode (oracle : ChatOracle) (executor : AssetConfig → PyStr → PyStr)
    (cancel : Nat → Bool) (config : AppConfig) (userInstruction : PyStr) :
    Except PExn NtOut :=
  match resolveTargetAssets config userInstruction with
  | (targetAssets, explicit) =>
    if !explicit then
      .ok ⟨S "你还没有指定要操作的资产。\n\n当前可用资产：\n" ++ listAssetsDisplay config ++
        S "\n\n请回复要操作的资产名称（如 web-server-01），或回复“全部”。",
        0, [], RunSt.init, []⟩
    else
      let targets := targetAssets.getD []
      match targets with
      | [] => .ok ⟨S "错误：未配置任何资产，请先在 config.yaml 的 assets 中添加服务器。",
          0, [], RunSt.init, []⟩
      | assetName :: _ =>
        match getAssetByName config assetName with
        | none => .ok ⟨S "未找到资产 '" ++ assetName ++ S "'。可用资产：\n" ++
            listAssetsDisplay config, 0, [], RunSt.init, []⟩
        | some asset =>
          let isDeployIntent := [S "部署", S "安装", S "upgrade", S "install",
            S "nginx"].any (fun k => pyContains userInstruction k)
          let systemContent :=
            S "你是一个专业的 Linux 运维助手。你只能输出 JSON，不要输出 markdown 或其它文字。\n" ++
            S "根据用户指令和已执行命令的结果，每次只做以下两种之一：\n" ++
            S "1) 需要继续执行：输出 \x7b\"commands\":[\x7b\"command\":\"<一条 shell 命令>\",\"purpose\":\"<目的>\"\x7d]\x7d，每次只给一条命令。\n" ++
            S "2) 可以结束：输出 \x7b\"done\":true,\"conclusion\":\"<用中文给出最终结论与建议>\"\x7d。\n" ++
            S "禁止危险命令：rm -rf、mkfs、dd、shutdown、覆盖磁盘等。命令必须非交互式。\n" ++
            (if isDeployIntent then
              S "本次是【部署/安装】意图：允许 apt/yum/dnf、systemctl 等，并根据结果继续排查直到成功或明确失败。\n"
            else
              S "本次是【巡检/只读】意图：尽量只用只读命令（df、free、ps、journalctl 等）。\n")
          let firstUser :=
            S "目标资产：" ++ asset.getDisplay ++ S "\n用户指令：" ++ userInstruction ++
            S "\n\n请给出第一步要执行的命令（仅一条）。只输出 JSON：" ++
            S "\x7b\"commands\":[\x7b\"command\":\"...\",\"purpose\":\"...\"\x7d]\x7d。若无需执行可直接给结论：\x7b\"done\":true,\"conclusion\":\"...\"\x7d。"
          let messages : List Msg :=
            [⟨S "system", systemContent⟩, ⟨S "user", firstUser⟩]
          ntLoopGo oracle executor cancel assetName asset NO_TOOLS_MAX_ROUNDS 0
            messages RunSt.init []

/-! ### `main.py`: `RunState.commands` updates -/

/-- One `RunState.commands` entry (`main.py` builds these dicts with exactly
these keys). -/
structure CmdEntry where
  assetName : PyStr
  command : PyStr
  result : PyStr
  assetHost : PyStr
deriving DecidableEq

/-- The reverse scan of `main.py` `_run_state_update_command` (and the
identical loop in `api_run`'s `on_command`): find the *last* entry matching
`(asset_name, command)` whose `result` is still empty, fill it, and report
whether one was found. -/
def updateLastUnfilled (cmds : List CmdEntry) (assetName command result : PyStr)
    (assetHost : Option PyStr) : Option (List CmdEntry) :=
  match cmds with
  | [] => none
  | e :: rest =>
    match updateLastUnfilled rest assetName command result assetHost with
    | some rest' => some (e :: rest')
    | none =>
      if e.assetName = assetName ∧ e.command = command ∧ e.result = [] then
        some ({ e with
          result := result,
          assetHost := match assetHost with | some h => h | none => e.assetHost } :: rest)
      else none

/-- `main.py` `_run_state_update_command` on the `commands` list (the
surrounding lock acquisition and `trace_id` lookup carry no list semantics):
fill the most recent unfilled matching entry, else append a new one. -/
def runStateUpdateCommand (cmds : List CmdEntry) (assetName command result : PyStr)
    (assetHost : Option PyStr) : List CmdEntry :=
  match updateLastUnfilled cmds assetName command result assetHost with
  | some cmds' => cmds'
  | none => cmds ++ [⟨assetName, command, result, assetHost.getD []⟩]

/-! ## Theorems for the claims -/

set_option maxRecDepth 10000

/-- The wrapper shell of a tool result (for stating C5): `<tool_result>` tags
around a body, with the asset attribute when a truthy asset is supplied. -/
def wrapShell (body : PyStr) (asset : Option PyStr) : PyStr :=
  match asset with
  | some a =>
    if a ≠ [] then
      S "<tool_result asset=\"" ++ a ++ S "\">\n" ++ body ++ S "\n</tool_result>"
    else S "<tool_result>\n" ++ body ++ S "\n</tool_result>"
  | none => S "<tool_result>\n" ++ body ++ S "\n</tool_result>"

/-- The truncation note appended by `_wrap_tool_result`, reporting the
payload's original length. -/
def truncNote (origLen : Nat) : PyStr :=
  S "\n\n(以上为命令输出前 " ++ natToStr TOOL_RESULT_MAX_CHARS ++
  S " 字，已截断；完整共 " ++ natToStr origLen ++
  S " 字。请根据上述信息输出下一个 action：继续执行命令或 final 总结。)"

/-- C6: the dangerous-command predicate accepts every listed destructive
example (matched on the lowercased, stripped command by the word-boundary
patterns), treats the empty command as dangerous, and rejects the ordinary
read commands `df -h` and `systemctl status nginx`. -/
theorem c6_dangerous_command_examples :
    looksDangerousCommand (S "rm -rf /") = true ∧
    looksDangerousCommand (S "mkfs.ext4 /dev/sda1") = true ∧
    looksDangerousCommand (S "dd if=/dev/zero of=/dev/sda") = true ∧
    looksDangerousCommand (S ":()\x7b :|:& \x7d;:") = true ∧
    looksDangerousCommand (S "") = true ∧
    looksDangerousCommand (S "df -h") = false ∧
    looksDangerousCommand (S "systemctl status nginx") = false :=
  ⟨rfl, rfl, rfl, rfl, rfl, rfl, rfl⟩

/-- C5: `_wrap_tool_result` leaves a nonempty payload at or under the
12,000-character ceiling unmodified inside the wrapper; a payload over the
ceiling is cut to its first 12,000 characters with a note reporting the
original length; absent (`None`) or empty text becomes the `(无输出)`
("no output") placeholder; and the operation is a total function. -/
theorem c5_wrap_tool_result (t : PyStr) (a : Option PyStr) :
    (t ≠ [] → t.length ≤ TOOL_RESULT_MAX_CHARS →
      wrapToolResult (some t) a = wrapShell t a) ∧
    (TOOL_RESULT_MAX_CHARS < t.length →
      wrapToolResult (some t) a =
        wrapShell (t.take TOOL_RESULT_MAX_CHARS ++ truncNote t.length) a) ∧
    wrapToolResult (some []) a = wrapShell (S "(无输出)") a ∧
    wrapToolResult none a = wrapShell (S "(无输出)") a := by
  refine ⟨fun hne hle => ?_, fun hgt => ?_, ?_, ?_⟩
  · simp only [wrapToolResult, wrapShell]
    rw [if_neg hne, if_neg (Nat.not_lt.mpr hle)]
  · have hne : t ≠ [] := by
      intro h
      rw [h] at hgt
      simp only [List.length_nil] at hgt
      exact absurd hgt (Nat.not_lt_zero _)
    simp only [wrapToolResult, wrapShell, truncNote]
    rw [if_neg hne, if_pos hgt]
    cases a with
    | none => simp only [List.append_assoc]
    | some x =>
      by_cases hx : x ≠ [] <;> simp only [hx, if_true, if_false, reduceIte] <;>
        simp only [List.append_assoc]
  · rfl
  · rfl

/-- C5 witness: a short payload is wrapped unmodified, and a 12,001-character
payload is truncated to its first 12,000 characters with the note reporting
12,001. -/
theorem c5_wrap_tool_result_witness :
    wrapToolResult (some (S "ok")) (some (S "web-01")) = wrapShell (S "ok") (some (S "web-01")) ∧
    wrapToolResult (some (List.replicate 12001 'a')) none =
      wrapShell ((List.replicate 12001 'a').take TOOL_RESULT_MAX_CHARS ++ truncNote 12001) none := by
  constructor
  · exact (c5_wrap_tool_result (S "ok") (some (S "web-01"))).1 (by decide) (by decide)
  · have h := (c5_wrap_tool_result (List.replicate 12001 'a') none).2.1
      (by rw [List.length_replicate]; decide)
    rw [List.length_replicate] at h
    exact h

/-- C7: the final-message quality test rejects an empty message; rejects a
message containing a generic compliance phrase when the Markdown-table
condition does not hold; rejects a message shorter than 25 characters with
none of the domain keywords; and always accepts a message satisfying the
Markdown-table condition (several `|` columns over multiple lines, or three
or more columns, with length over 30). -/
theorem fluffTableCond_length {s : PyStr} (h : fluffTableCond s = true) :
    30 < s.length := by
  unfold fluffTableCond at h
  simp only [Bool.and_eq_true, decide_eq_true_eq] at h
  exact h.2

theorem c7_final_message_fluff (m : PyStr) :
    (pyStrip m = [] → isFinalMessageFluff m = true) ∧
    (fluffPhrases.any (fun p => pyContains (pyStrip m) p) = true →
      fluffTableCond (pyStrip m) = false → isFinalMessageFluff m = true) ∧
    ((pyStrip m).length < 25 →
      fluffKeywords.any (fun k => pyContains (pyStrip m) k) = false →
      isFinalMessageFluff m = true) ∧
    (fluffTableCond (pyStrip m) = true → isFinalMessageFluff m = false) := by
  refine ⟨fun h => ?_, fun hp ht => ?_, fun hl hk => ?_, fun ht => ?_⟩
  · simp only [isFinalMessageFluff]
    rw [if_pos h]
  · by_cases hs : pyStrip m = []
    · simp only [isFinalMessageFluff]; rw [if_pos hs]
    · simp only [isFinalMessageFluff]
      rw [if_neg hs, if_neg (by simp [ht]), if_pos hp]
  · by_cases hs : pyStrip m = []
    · simp only [isFinalMessageFluff]; rw [if_pos hs]
    · have htc : fluffTableCond (pyStrip m) = false := by
        cases hcond : fluffTableCond (pyStrip m) with
        | false => rfl
        | true => exact absurd (fluffTableCond_length hcond) (by omega)
      by_cases hp : fluffPhrases.any (fun p => pyContains (pyStrip m) p) = true
      · simp only [isFinalMessageFluff]
        rw [if_neg hs, if_neg (by simp [htc]), if_pos hp]
      · simp only [isFinalMessageFluff]
        rw [if_neg hs, if_neg (by simp [htc]),
          if_neg (by simpa using hp),
          if_pos (by simp [hl, hk])]
  · have hs : pyStrip m ≠ [] := by
      intro h
      rw [h] at ht
      exact absurd ht (by decide)
    simp only [isFinalMessageFluff]
    rw [if_neg hs, if_pos ht]

/-- C7 witness: the four cases at concrete messages. -/
theorem c7_final_message_fluff_witness :
    isFinalMessageFluff (S "  ") = true ∧
    isFinalMessageFluff (S "任务已完成") = true ∧
    isFinalMessageFluff (S "ok") = true ∧
    isFinalMessageFluff (S "| 用户 | UID |\n|------|-----|\n| root | 0 |") = false := by
  refine ⟨?_, ?_, ?_, ?_⟩
  · exact (c7_final_message_fluff (S "  ")).1 (by decide)
  · exact (c7_final_message_fluff (S "任务已完成")).2.1 (by decide) (by decide)
  · exact (c7_final_message_fluff (S "ok")).2.2.1 (by decide) (by decide)
  · exact (c7_final_message_fluff
      (S "| 用户 | UID |\n|------|-----|\n| root | 0 |")).2.2.2 (by decide)

/-- The three wire encodings of the same `ExecuteCommand` used in C4. -/
def wireTagForm : PyStr :=
  S "<tool_call>\x7b\"name\": \"execute_command\", \"arguments\": \x7b\"asset_name\": \"web-01\", \"command\": \"df -h\"\x7d\x7d</tool_call>"

def wireFencedForm : PyStr :=
  S "```json\n\x7b\"action\": \"execute_command\", \"asset\": \"web-01\", \"command\": \"df -h\"\x7d\n```"

def wireBareForm : PyStr :=
  S "\x7b\"action\": \"execute_command\", \"asset\": \"web-01\", \"command\": \"df -h\"\x7d"

/-- Auxiliary: the `name`/`arguments` mapping yields a fully populated
`execute_command` action whenever its strips succeed and one field is
nonempty. -/
theorem toolCallToAction_exec (nv : JVal) (kvs : List (PyStr × JVal)) (asset cmd : PyStr)
    (hn : pyOrEmptyStrip (some nv) = .ok (S "execute_command"))
    (ha : pyOr2Strip (jGet (JVal.obj kvs) (S "asset_name")) (jGet (JVal.obj kvs) (S "asset")) = .ok asset)
    (hc : pyOrEmptyStrip (jGet (JVal.obj kvs) (S "command")) = .ok cmd)
    (hne : asset ≠ [] ∨ cmd ≠ []) :
    toolCallToAction (nv, kvs) = .ok (some (mkExecAction asset cmd)) := by
  simp only [toolCallToAction, hn, ha, hc, bind, Except.bind]
  rw [if_pos trivial, if_pos hne]
  rfl

/-- The tag and bare-JSON encodings of an `ExecuteCommand` whose command
carries a trailing space, used by the C4 counterexample. -/
def wireTagFormSp : PyStr :=
  S "<tool_call>\x7b\"name\": \"execute_command\", \"arguments\": \x7b\"asset_name\": \"web-01\", \"command\": \"df -h \"\x7d\x7d</tool_call>"

def wireBareFormSp : PyStr :=
  S "\x7b\"action\": \"execute_command\", \"asset\": \"web-01\", \"command\": \"df -h \"\x7d"

/-- C4 counterexample: the same `ExecuteCommand` (asset `web-01`, command
`"df -h "`) parses to field-different actions across wire forms — the
tool-call tag path strips the command to `"df -h"`, while the bare-JSON path
returns the parsed object verbatim with command `"df -h "`. -/
theorem c4_counterexample :
    parseSelfCodedAction wireTagFormSp =
      .ok (some (mkExecAction (S "web-01") (S "df -h"))) ∧
    parseSelfCodedAction wireBareFormSp =
      .ok (some (JVal.obj [(S "action", JVal.str (S "execute_command")),
        (S "asset", JVal.str (S "web-01")), (S "command", JVal.str (S "df -h "))])) ∧
    jGet (mkExecAction (S "web-01") (S "df -h")) (S "command") =
      some (.str (S "df -h")) ∧
    jGet (JVal.obj [(S "action", JVal.str (S "execute_command")),
        (S "asset", JVal.str (S "web-01")), (S "command", JVal.str (S "df -h "))])
      (S "command") = some (.str (S "df -h ")) ∧
    S "df -h" ≠ S "df -h " :=
  ⟨rfl, rfl, rfl, rfl, by decide⟩

/-- C4 (amended): all three wire encodings parse successfully, but only the
delimiter-tagged tool-call form strips its field strings before building the
canonical action — the fenced-code-block and bare-JSON forms return the
parsed object verbatim.  The three forms therefore agree exactly when the
asset and command carry no surrounding whitespace: for `web-01` / `df -h`
all three parse to the field-identical canonical action. -/
theorem c4_amended :
    (∀ a c : PyStr, pyStrip a ≠ [] →
      toolCallToAction (JVal.str (S "execute_command"),
          [(S "asset_name", JVal.str a), (S "command", JVal.str c)]) =
        .ok (some (mkExecAction (pyStrip a) (pyStrip c)))) ∧
    (∀ (t : PyStr) (kvs : List (PyStr × JVal)),
      pyJsonLoads (stripJsonComments t) = some (JVal.obj kvs) →
      jTruthyO (jGet (JVal.obj kvs) (S "action")) = true →
      tryLoadCandidate t = some (JVal.obj kvs)) ∧
    parseSelfCodedAction wireTagForm = .ok (some (mkExecAction (S "web-01") (S "df -h"))) ∧
    parseSelfCodedAction wireFencedForm = .ok (some (mkExecAction (S "web-01") (S "df -h"))) ∧
    parseSelfCodedAction wireBareForm = .ok (some (mkExecAction (S "web-01") (S "df -h"))) ∧
    jGet (mkExecAction (S "web-01") (S "df -h")) (S "action") = some (.str (S "execute_command")) ∧
    jGet (mkExecAction (S "web-01") (S "df -h")) (S "asset") = some (.str (S "web-01")) ∧
    jGet (mkExecAction (S "web-01") (S "df -h")) (S "command") = some (.str (S "df -h")) := by
  refine ⟨?_, ?_, rfl, rfl, rfl, rfl, rfl, rfl⟩
  · intro a c ha
    have hane : a ≠ [] := fun h => ha (by rw [h]; rfl)
    have hae : a.isEmpty = false := by
      cases a with
      | nil => exact absurd rfl hane
      | cons x l => rfl
    apply toolCallToAction_exec
    · rfl
    · show pyOr2Strip (some (JVal.str a)) none = .ok (pyStrip a)
      simp only [pyOr2Strip, pyOrEmptyStrip, jTruthyO, jTruthy, hae, Bool.not_false, if_true]
    · show pyOrEmptyStrip (some (JVal.str c)) = .ok (pyStrip c)
      cases hce : c.isEmpty with
      | true =>
        have : c = [] := by cases c with | nil => rfl | cons x l => exact absurd hce (by simp)
        subst this; rfl
      | false =>
        simp only [pyOrEmptyStrip, jTruthyO, jTruthy, hce, Bool.not_false, if_true]
    · exact Or.inl ha
  · intro t kvs hp ht
    simp only [tryLoadCandidate, hp, ht, if_true]

/-- C4 witness: the tag path strips `" web-01 "` / `" df -h "` to the
canonical fields, and the bare-JSON candidate with the trailing-space command
is returned verbatim. -/
theorem c4_amended_witness :
    toolCallToAction (JVal.str (S "execute_command"),
        [(S "asset_name", JVal.str (S " web-01 ")), (S "command", JVal.str (S " df -h "))]) =
      .ok (some (mkExecAction (pyStrip (S " web-01 ")) (pyStrip (S " df -h ")))) ∧
    tryLoadCandidate wireBareFormSp =
      some (JVal.obj [(S "action", JVal.str (S "execute_command")),
        (S "asset", JVal.str (S "web-01")), (S "command", JVal.str (S "df -h "))]) :=
  ⟨c4_amended.1 (S " web-01 ") (S " df -h ") (by decide),
   c4_amended.2.1 wireBareFormSp
     [(S "action", JVal.str (S "execute_command")),
      (S "asset", JVal.str (S "web-01")), (S "command", JVal.str (S "df -h "))]
     rfl (by decide)⟩

/-- C2 counterexample: a bare-JSON `execute_command` object is returned
verbatim, with both `asset` and `command` absent (not present-but-empty); and
a `<tool_call>` block whose `name` is a truthy non-string makes the parser
raise an `AttributeError` instead of returning `None`. -/
theorem c2_counterexample :
    parseSelfCodedAction (S "\x7b\"action\": \"execute_command\"\x7d") =
      .ok (some (JVal.obj [(S "action", JVal.str (S "execute_command"))])) ∧
    jGet (JVal.obj [(S "action", JVal.str (S "execute_command"))]) (S "asset") = none ∧
    jGet (JVal.obj [(S "action", JVal.str (S "execute_command"))]) (S "command") = none ∧
    parseSelfCodedAction (S "<tool_call>\x7b\"name\": 5, \"arguments\": \x7b\x7d\x7d</tool_call>") =
      .error PExn.attributeError :=
  ⟨rfl, rfl, rfl, rfl⟩

/-- C10 counterexample: the input is a single JSON object with a `response`
field and no `action` field, yet the parser's Final message is not the
stringified `response` value: the reasoning-delimiter stripper ran first and
deleted the `<think>...</think>` fragment inside the string. -/
theorem c10_counterexample :
    pyJsonLoads (S "\x7b\"response\": \"a<think>b</think>c\"\x7d") =
      some (JVal.obj [(S "response", JVal.str (S "a<think>b</think>c"))]) ∧
    jGet (JVal.obj [(S "response", JVal.str (S "a<think>b</think>c"))]) (S "action") = none ∧
    parseSelfCodedAction (S "\x7b\"response\": \"a<think>b</think>c\"\x7d") =
      .ok (some (mkFinalAction (S "ac"))) ∧
    jGet (mkFinalAction (S "ac")) (S "message") = some (.str (S "ac")) ∧
    S "ac" ≠ pyStrip (pyStrOfJVal (JVal.str (S "a<think>b</think>c"))) :=
  ⟨rfl, rfl, rfl, rfl, by decide⟩

/-- The config and dispatch contexts used by the C1 counterexample: one known
asset `web-01` and executors with distinguishable outputs. -/
def c1Config : AppConfig :=
  ⟨[⟨S "web-01", S "10.0.0.1", 22, S "root", some (S "pw"), none⟩]⟩

def c1Ctx1 : DispatchCtx := ⟨c1Config, false, [], fun _ _ => [], fun _ _ => S "EXECUTED"⟩

def c1Ctx2 : DispatchCtx := ⟨c1Config, false, [], fun _ _ => [], fun _ _ => S "OTHER"⟩

/-- C1 counterexample: the self-coded dispatcher does not reject
`rm -rf /` — the pattern test classifies it as dangerous, yet `dispatch`
invokes the external executor (both command callbacks fire and the returned
tool result is the wrapped executor output, which changes when the executor
changes) instead of rejecting the action before dispatch. -/
theorem c1_counterexample :
    looksDangerousCommand (S "rm -rf /") = true ∧
    orchDispatch c1Ctx1 (fun _ => false) (mkExecAction (S "web-01") (S "rm -rf /")) RunSt.init =
      .ok (wrapToolResult (some (S "EXECUTED")) (some (S "web-01")), false,
        ⟨0, 1, [CmdEvent.start (S "web-01") (S "rm -rf /"),
          CmdEvent.done (S "web-01") (S "rm -rf /") (S "EXECUTED")]⟩) ∧
    orchDispatch c1Ctx2 (fun _ => false) (mkExecAction (S "web-01") (S "rm -rf /")) RunSt.init =
      .ok (wrapToolResult (some (S "OTHER")) (some (S "web-01")), false,
        ⟨0, 1, [CmdEvent.start (S "web-01") (S "rm -rf /"),
          CmdEvent.done (S "web-01") (S "rm -rf /") (S "OTHER")]⟩) :=
  ⟨rfl, rfl, rfl⟩

/-- Auxiliary: no tool calls parse out of the empty text. -/
theorem parseToolCalls_nil : parseToolCallsFromContent [] = [] := rfl

set_option maxHeartbeats 2000000 in
/-- C2 (amended): whenever the tool-call scan of the think-stripped text
yields exactly one call whose `name` strips to `execute_command` and whose
`asset`/`command` strips succeed with at least one nonempty, the parser
returns an `execute_command` action carrying both the `asset` and `command`
fields (present, possibly as empty strings).  (The bare-JSON path instead
returns the raw object — see the counterexample — and the strips can raise
on truthy non-string values.) -/
theorem c2_amended (content : PyStr) (nv : JVal) (kvs : List (PyStr × JVal))
    (asset cmd : PyStr)
    (h0 : pyStrip content ≠ [])
    (h1 : parseToolCallsFromContent (pyStrip (stripThinkBlocks content)) = [(nv, kvs)])
    (hn : pyOrEmptyStrip (some nv) = .ok (S "execute_command"))
    (ha : pyOr2Strip (jGet (JVal.obj kvs) (S "asset_name")) (jGet (JVal.obj kvs) (S "asset")) = .ok asset)
    (hc : pyOrEmptyStrip (jGet (JVal.obj kvs) (S "command")) = .ok cmd)
    (hne : asset ≠ [] ∨ cmd ≠ []) :
    parseSelfCodedAction content = .ok (some (mkExecAction asset cmd)) ∧
    jGet (mkExecAction asset cmd) (S "asset") = some (.str asset) ∧
    jGet (mkExecAction asset cmd) (S "command") = some (.str cmd) := by
  refine ⟨?_, rfl, rfl⟩
  have hraw : pyStrip (stripThinkBlocks content) ≠ [] := by
    intro h
    rw [h, parseToolCalls_nil] at h1
    exact List.cons_ne_nil _ _ h1.symm
  simp only [parseSelfCodedAction, bind, Except.bind]
  rw [if_neg h0, if_neg hraw, h1]
  simp only [toolCallToAction_exec nv kvs asset cmd hn ha hc hne]
  rfl

set_option maxHeartbeats 2000000 in
/-- C2 (amended) witness: the tagged wire form of an `execute_command`. -/
theorem c2_amended_witness :
    parseSelfCodedAction wireTagForm = .ok (some (mkExecAction (S "web-01") (S "df -h"))) ∧
    jGet (mkExecAction (S "web-01") (S "df -h")) (S "asset") = some (.str (S "web-01")) ∧
    jGet (mkExecAction (S "web-01") (S "df -h")) (S "command") = some (.str (S "df -h")) :=
  c2_amended wireTagForm
    (JVal.str (S "execute_command"))
    [(S "asset_name", .str (S "web-01")), (S "command", .str (S "df -h"))]
    (S "web-01") (S "df -h")
    (by decide) rfl rfl rfl rfl (Or.inl (by decide))

set_option maxHeartbeats 2000000 in
/-- C10 (amended): when the earlier strategies are inert — no tool call in
the think-stripped text, which parses whole as one JSON object with a falsy
`action` member and a string `response` member — the parser returns a `final`
action whose message is the stripped `response` string: the undocumented
fourth accepted encoding. -/
theorem c10_amended (content : PyStr) (kvs : List (PyStr × JVal)) (v : PyStr)
    (h0 : pyStrip content ≠ [])
    (h1 : parseToolCallsFromContent (pyStrip (stripThinkBlocks content)) = [])
    (h2 : pyJsonLoads (stripJsonComments (pyStrip (stripThinkBlocks content))) =
      some (JVal.obj kvs))
    (h3 : jTruthyO (jGet (JVal.obj kvs) (S "action")) = false)
    (h4 : jGet (JVal.obj kvs) (S "response") = some (JVal.str v)) :
    parseSelfCodedAction content = .ok (some (mkFinalAction (pyStrip v))) := by
  have hraw : pyStrip (stripThinkBlocks content) ≠ [] := by
    intro h
    rw [h] at h2
    have hn2 : pyJsonLoads (stripJsonComments ([] : PyStr)) = none := rfl
    rw [hn2] at h2
    exact Option.noConfusion h2
  have hcand : tryLoadCandidate (pyStrip (stripThinkBlocks content)) =
      some (mkFinalAction (pyStrip v)) := by
    simp only [tryLoadCandidate, h2, h3, h4, Bool.false_eq_true, if_false, pyStrOfJVal]
  have htl : tryLoadAction (pyStrip (stripThinkBlocks content)) =
      some (mkFinalAction (pyStrip v)) := by
    simp only [tryLoadAction, hcand]
    rfl
  simp only [parseSelfCodedAction, bind, Except.bind]
  rw [if_neg h0, if_neg hraw, h1]
  simp only [htl]
  rfl

set_option maxHeartbeats 2000000 in
/-- C10 (amended) witness: `{"response": "done"}` parses to
`final`/`done`. -/
theorem c10_amended_witness :
    parseSelfCodedAction (S "\x7b\"response\": \"done\"\x7d") =
      .ok (some (mkFinalAction (pyStrip (S "done")))) :=
  c10_amended (S "\x7b\"response\": \"done\"\x7d")
    [(S "response", .str (S "done"))] (S "done")
    (by decide) rfl rfl rfl rfl

/-- An entry that C9's "most recent unfilled" rule can fill. -/
def entryMatches (e : CmdEntry) (a c : PyStr) : Prop :=
  e.assetName = a ∧ e.command = c ∧ e.result = []

instance (e : CmdEntry) (a c : PyStr) : Decidable (entryMatches e a c) := by
  unfold entryMatches; infer_instance

/-- Modelled from the claim's words: the index of the most recent (greatest
index) entry with the same `(assetName, command)` pair and a still-empty
result. -/
def specLastUnfilledIdx : List CmdEntry → PyStr → PyStr → Option Nat
  | [], _, _ => none
  | e :: rest, a, c =>
    match specLastUnfilledIdx rest a c with
    | some i => some (i + 1)
    | none => if entryMatches e a c then some 0 else none

/-- The filled version of an entry. -/
def fillEntry (e : CmdEntry) (r : PyStr) (h : Option PyStr) : CmdEntry :=
  { e with result := r, assetHost := match h with | some host => host | none => e.assetHost }

theorem specLastUnfilledIdx_char (cmds : List CmdEntry) (a c : PyStr) :
    (match specLastUnfilledIdx cmds a c with
     | some i => ∃ e, cmds.get? i = some e ∧ entryMatches e a c ∧
        (∀ j e', i < j → cmds.get? j = some e' → ¬ entryMatches e' a c)
     | none => ∀ j e', cmds.get? j = some e' → ¬ entryMatches e' a c) := by
  induction cmds with
  | nil =>
    simp only [specLastUnfilledIdx]
    intro j e' hj
    simp at hj
  | cons e rest ih =>
    simp only [specLastUnfilledIdx]
    cases hs : specLastUnfilledIdx rest a c with
    | some i =>
      rw [hs] at ih
      obtain ⟨w, hw, hm, hmax⟩ := ih
      refine ⟨w, by simpa using hw, hm, ?_⟩
      intro j e' hij hje
      cases j with
      | zero => omega
      | succ k =>
        simp only [List.get?_cons_succ] at hje
        exact hmax k e' (by omega) hje
    | none =>
      rw [hs] at ih
      by_cases hm : entryMatches e a c
      · rw [if_pos hm]
        refine ⟨e, rfl, hm, ?_⟩
        intro j e' hij hje
        cases j with
        | zero => omega
        | succ k =>
          simp only [List.get?_cons_succ] at hje
          exact ih k e' hje
      · rw [if_neg hm]
        intro j e' hje
        cases j with
        | zero =>
          simp only [List.get?_cons_zero, Option.some_inj] at hje
          rw [hje] at hm
          exact hm
        | succ k =>
          simp only [List.get?_cons_succ] at hje
          exact ih k e' hje

theorem updateLastUnfilled_spec (cmds : List CmdEntry) (a c r : PyStr) (h : Option PyStr) :
    (match specLastUnfilledIdx cmds a c with
     | some i => ∃ l, updateLastUnfilled cmds a c r h = some l ∧
        l.length = cmds.length ∧
        l.get? i = (cmds.get? i).map (fun e => fillEntry e r h) ∧
        (∀ j, j ≠ i → l.get? j = cmds.get? j)
     | none => updateLastUnfilled cmds a c r h = none) := by
  induction cmds with
  | nil => simp [specLastUnfilledIdx, updateLastUnfilled]
  | cons e rest ih =>
    simp only [specLastUnfilledIdx, updateLastUnfilled]
    cases hs : specLastUnfilledIdx rest a c with
    | some i =>
      rw [hs] at ih
      obtain ⟨l, hl, hlen, hgi, hoth⟩ := ih
      rw [hl]
      refine ⟨e :: l, rfl, by simp [hlen], by simpa using hgi, ?_⟩
      intro j hj
      cases j with
      | zero => simp
      | succ k =>
        simp only [List.get?_cons_succ]
        exact hoth k (by omega)
    | none =>
      rw [hs] at ih
      rw [ih]
      by_cases hm : entryMatches e a c
      · rw [if_pos hm, if_pos ⟨hm.1, hm.2.1, hm.2.2⟩]
        refine ⟨_, rfl, by simp, by simp [fillEntry], ?_⟩
        intro j hj
        cases j with
        | zero => omega
        | succ k => simp
      · rw [if_neg hm, if_neg (fun hx => hm ⟨hx.1, hx.2.1, hx.2.2⟩)]

theorem c9_update_command (cmds : List CmdEntry) (a c r : PyStr) (h : Option PyStr) :
    (match specLastUnfilledIdx cmds a c with
     | some i =>
        ∃ e, cmds.get? i = some e ∧ entryMatches e a c ∧
          (∀ j e', i < j → cmds.get? j = some e' → ¬ entryMatches e' a c) ∧
          (runStateUpdateCommand cmds a c r h).length = cmds.length ∧
          (runStateUpdateCommand cmds a c r h).get? i = some (fillEntry e r h) ∧
          (∀ j, j ≠ i → (runStateUpdateCommand cmds a c r h).get? j = cmds.get? j)
     | none =>
        (∀ j e', cmds.get? j = some e' → ¬ entryMatches e' a c) ∧
        runStateUpdateCommand cmds a c r h = cmds ++ [⟨a, c, r, h.getD []⟩]) ∧
    (∀ j e, cmds.get? j = some e → e.result ≠ [] →
      (runStateUpdateCommand cmds a c r h).get? j = cmds.get? j) := by
  have hchar := specLastUnfilledIdx_char cmds a c
  have hupd := updateLastUnfilled_spec cmds a c r h
  constructor
  · cases hs : specLastUnfilledIdx cmds a c with
    | some i =>
      rw [hs] at hchar hupd
      obtain ⟨e, he, hm, hmax⟩ := hchar
      obtain ⟨l, hl, hlen, hgi, hoth⟩ := hupd
      unfold runStateUpdateCommand
      rw [hl]
      exact ⟨e, he, hm, hmax, hlen, by rw [hgi, he]; rfl, hoth⟩
    | none =>
      rw [hs] at hchar hupd
      unfold runStateUpdateCommand
      rw [hupd]
      exact ⟨hchar, rfl⟩
  · intro j e hj hres
    cases hs : specLastUnfilledIdx cmds a c with
    | some i =>
      rw [hs] at hchar hupd
      obtain ⟨w, hw, hm, hmax⟩ := hchar
      obtain ⟨l, hl, hlen, hgi, hoth⟩ := hupd
      unfold runStateUpdateCommand
      rw [hl]
      by_cases hij : j = i
      · subst hij
        have hew : e = w := by
          rw [hj] at hw
          exact Option.some_inj.mp hw
        rw [hew] at hres
        exact absurd hm.2.2 hres
      · exact hoth j hij
    | none =>
      rw [hs] at hupd
      unfold runStateUpdateCommand
      rw [hupd]
      have hlt : j < cmds.length := by
        by_contra hle
        push_neg at hle
        rw [List.get?_eq_none.mpr hle] at hj
        exact Option.noConfusion hj
      rw [List.get?_append hlt]

/-- C9 witness: with a duplicate pair whose earlier entry is already filled,
the filled entry at index 0 is untouched; and an unmatched update appends a
new entry. -/
theorem c9_update_command_witness :
    (runStateUpdateCommand
      [⟨S "web-01", S "df -h", S "old", []⟩, ⟨S "web-01", S "df -h", [], []⟩]
      (S "web-01") (S "df -h") (S "new") none).get? 0 =
      some ⟨S "web-01", S "df -h", S "old", []⟩ ∧
    runStateUpdateCommand [⟨S "web-01", S "df -h", S "old", []⟩]
      (S "db-02") (S "ls") (S "r") none =
      [⟨S "web-01", S "df -h", S "old", []⟩] ++ [⟨S "db-02", S "ls", S "r", []⟩] := by
  constructor
  · have h := (c9_update_command
      [⟨S "web-01", S "df -h", S "old", []⟩, ⟨S "web-01", S "df -h", [], []⟩]
      (S "web-01") (S "df -h") (S "new") none).2 0
      ⟨S "web-01", S "df -h", S "old", []⟩ (by decide) (by decide)
    rw [h]
    rfl
  · have h := (c9_update_command [⟨S "web-01", S "df -h", S "old", []⟩]
      (S "db-02") (S "ls") (S "r") none).1
    have hs : specLastUnfilledIdx [⟨S "web-01", S "df -h", S "old", []⟩]
        (S "db-02") (S "ls") = none := by decide
    simp only [hs] at h
    exact h.2

/-- Any successful run of the self-coded loop starts at most `fuel` further
rounds beyond its starting index. -/
theorem chatSelfCodedGo_rounds_le (oracle : ChatOracle) (dispatchF : DispatchFn) :
    ∀ fuel r n msgs st out,
      chatSelfCodedGo oracle dispatchF fuel r n msgs st = .ok out → out.rounds ≤ r + fuel := by
  intro fuel
  induction fuel with
  | zero => intro r n msgs st out heq; simp only [chatSelfCodedGo] at heq; cases heq; simp
  | succ fuel ih =>
    intro r n msgs st out heq
    simp only [chatSelfCodedGo, bind, Except.bind] at heq
    iterate 12 (all_goals try split at heq)
    all_goals first
      | exact Except.noConfusion heq
      | (cases heq; show r + 1 ≤ r + (fuel + 1); omega)
      | (have hx := ih _ _ _ _ _ heq; omega)

/-- When every model reply parses to an action and no dispatch is terminal,
the loop spends its whole budget and ends with the round-budget message. -/
theorem chatSelfCodedGo_budget (oracle : ChatOracle) (dispatchF : DispatchFn)
    (H1 : ∀ i m kw, pyStrip (pyStrip (oracle i m kw)) ≠ [] ∧
      ∃ a, parseSelfCodedAction (pyStrip (pyStrip (oracle i m kw))) = .ok (some a))
    (H2 : ∀ a st, ∃ u st', dispatchF a st = .ok (u, false, st')) :
    ∀ fuel r n msgs st, ∃ out,
      chatSelfCodedGo oracle dispatchF fuel r n msgs st = .ok out ∧
      out.reply = roundBudgetText ∧ out.rounds = r + fuel := by
  intro fuel
  induction fuel with
  | zero =>
    intro r n msgs st
    exact ⟨⟨roundBudgetText, r, msgs, st⟩, rfl, rfl, rfl⟩
  | succ fuel ih =>
    intro r n msgs st
    obtain ⟨hne, a, hpa⟩ := H1 st.chatCalls msgs ⟨some 8192, some (if r = 0 then 5 else 3)⟩
    obtain ⟨u, st', hd⟩ := H2 a { st with chatCalls := st.chatCalls + 1 }
    obtain ⟨out, hgo, hre, hro⟩ := ih (r + 1) n
      ((msgs ++ [⟨S "assistant", pyStrip (pyStrip (oracle st.chatCalls msgs
        ⟨some 8192, some (if r = 0 then 5 else 3)⟩))⟩]) ++
        [⟨S "user", if u = [] then S "(无输出)" else u⟩]) st'
    refine ⟨out, ?_, hre, by omega⟩
    simp only [chatSelfCodedGo, chatOnce, bind, Except.bind]
    rw [if_neg hne]
    rw [hpa]
    simp only [fcRetryParse]
    rw [hd]
    simp only [Bool.false_eq_true, if_false]
    exact hgo

/-- A model stub that always replies with the bare-JSON `ExecuteCommand`. -/
def c3Oracle : ChatOracle := fun _ _ _ => wireBareForm

/-- A dispatch stub that always succeeds and is never terminal. -/
def c3Dispatch : DispatchFn := fun _ st => .ok (S "x", false, st)

theorem c3w1 : pyStrip (pyStrip wireBareForm) ≠ [] := by decide

theorem c3w2 : parseSelfCodedAction (pyStrip (pyStrip wireBareForm)) =
    .ok (some (mkExecAction (S "web-01") (S "df -h"))) := rfl

/-- C3: the agent loop performs at most 50 rounds per run.  The default round
budget is 50 and no caller overrides it; every successful run starts at most
50 rounds; and when no round produces a terminal action (every reply parses to
an action and no dispatch reports final) the run stops after exactly 50 rounds
with the round-budget-exhausted message 「已达到最大轮数，任务未完成。」. -/
theorem c3_round_budget (oracle : ChatOracle) (dispatchF : DispatchFn) (msgs : List Msg)
    (H1 : ∀ i m kw, pyStrip (pyStrip (oracle i m kw)) ≠ [] ∧
      ∃ a, parseSelfCodedAction (pyStrip (pyStrip (oracle i m kw))) = .ok (some a))
    (H2 : ∀ a st, ∃ u st', dispatchF a st = .ok (u, false, st')) :
    FC_MAX_ROUNDS = 50 ∧
    (∀ out, chatWithSelfCodedFc oracle dispatchF msgs = .ok out → out.rounds ≤ 50) ∧
    ∃ out, chatWithSelfCodedFc oracle dispatchF msgs = .ok out ∧
      out.reply = roundBudgetText ∧ out.rounds = 50 := by
  refine ⟨rfl, ?_, ?_⟩
  · intro out h
    have hb : out.rounds ≤ 0 + 50 :=
      chatSelfCodedGo_rounds_le oracle dispatchF FC_MAX_ROUNDS 0 0 msgs RunSt.init out h
    omega
  · obtain ⟨out, h, hre, hro⟩ :=
      chatSelfCodedGo_budget oracle dispatchF H1 H2 FC_MAX_ROUNDS 0 0 msgs RunSt.init
    exact ⟨out, h, hre, hro.trans rfl⟩

/-- C3 witness: with a model stub that always emits the same
`ExecuteCommand` and a never-terminal dispatch stub, the run stops after
exactly 50 rounds with the budget message. -/
theorem c3_round_budget_witness :
    FC_MAX_ROUNDS = 50 ∧
    (∀ out, chatWithSelfCodedFc c3Oracle c3Dispatch [] = .ok out → out.rounds ≤ 50) ∧
    ∃ out, chatWithSelfCodedFc c3Oracle c3Dispatch [] = .ok out ∧
      out.reply = roundBudgetText ∧ out.rounds = 50 :=
  c3_round_budget c3Oracle c3Dispatch []
    (fun _ _ _ => ⟨c3w1, mkExecAction (S "web-01") (S "df -h"), c3w2⟩)
    (fun _ st => ⟨S "x", st, rfl⟩)

set_option maxHeartbeats 2000000

/-- The self-coded dispatcher executes any well-formed `execute_command` on a
known asset when the cancel token reads false: no safety check stands between
parse and executor (note no hypothesis below mentions the dangerous-pattern
test). -/
theorem orchDispatch_exec (ctx : DispatchCtx) (cancel : Nat → Bool) (asset : AssetConfig)
    (assetName cmd0 cmd : PyStr) (st : RunSt)
    (hsa : pyStrip assetName = assetName)
    (hrep : pyReplace (pyReplace (pyStrip cmd0) (S "\\n") (S "\n")) (S "\\t") (S "\t") = cmd)
    (hane : assetName ≠ [])
    (hc0ne : cmd0 ≠ [])
    (hcne : cmd ≠ [])
    (hplc1 : assetName ≠ S "资产名称")
    (hplc2 : pyStrip cmd ≠ S "shell 命令")
    (hmcp : ¬(ctx.useMcp = true ∧ ctx.mcpUrl ≠ []))
    (hfound : getAssetByName ctx.config assetName = some asset)
    (hcanc : cancel st.cancelChecks = false) :
    orchDispatch ctx cancel (mkExecAction assetName cmd0) st =
      .ok (wrapToolResult
            (some (if ctx.executor asset cmd = [] then S "(无输出)" else ctx.executor asset cmd))
            (some assetName), false,
        ⟨st.chatCalls, st.cancelChecks + 1,
          st.events ++ [CmdEvent.start assetName cmd,
            CmdEvent.done assetName cmd (ctx.executor asset cmd)]⟩) := by
  have hae : assetName.isEmpty = false := by
    cases assetName with
    | nil => exact absurd rfl hane
    | cons a l => rfl
  have hce : cmd0.isEmpty = false := by
    cases cmd0 with
    | nil => exact absurd rfl hc0ne
    | cons a l => rfl
  have hga : jGet (mkExecAction assetName cmd0) (S "asset") = some (.str assetName) := rfl
  have hgc : jGet (mkExecAction assetName cmd0) (S "command") = some (.str cmd0) := rfl
  have ha4 : pyOrEmptyStrip (jGet (mkExecAction assetName cmd0) (S "action")) =
      .ok (S "execute_command") := rfl
  have ha5 : pyOrEmptyStrip (jGet (mkExecAction assetName cmd0) (S "asset")) =
      .ok assetName := by
    rw [hga]
    simp only [pyOrEmptyStrip, jTruthyO, jTruthy, hae, Bool.not_false, if_true, hsa]
  have ha6 : pyOrEmptyStrip (jGet (mkExecAction assetName cmd0) (S "command")) =
      .ok (pyStrip cmd0) := by
    rw [hgc]
    simp only [pyOrEmptyStrip, jTruthyO, jTruthy, hce, Bool.not_false, if_true]
  simp only [orchDispatch, bind, Except.bind, ha4, ha5, ha6]
  rw [if_neg (by decide : ¬(S "execute_command" = S "list_assets"))]
  rw [if_pos trivial]
  simp only [hcanc, Bool.false_eq_true, if_false, hrep, pure, Except.pure]
  rw [if_neg (fun h => h.elim hane hcne)]
  rw [if_neg (fun h => h.elim hplc1 hplc2)]
  rw [if_neg hmcp]
  rw [hfound]
  simp only [pure, Except.pure, List.append_assoc, List.cons_append, List.nil_append]

/-- One round of the no-tools loop on a plan whose first command is dangerous:
the loop returns the refusal reply, the executor is never invoked (no events
are appended) and the run ends. -/
theorem ntLoopGo_dangerous (oracle : ChatOracle) (executor : AssetConfig → PyStr → PyStr)
    (cancel : Nat → Bool) (assetName : PyStr) (asset : AssetConfig) (raw : PyStr)
    (plan : JVal) (kvs : List (PyStr × JVal)) (tl : List JVal) (cmd : PyStr)
    (horacle : ∀ i m kw, oracle i m kw = raw)
    (hne : pyStrip (pyStrip raw) ≠ [])
    (hext : extractJson (pyStrip raw) = some plan)
    (hconc : jGet plan (S "conclusion") = none)
    (hcmds : jGet plan (S "commands") = some (JVal.arr (JVal.obj kvs :: tl)))
    (htr : jTruthy (JVal.obj kvs) = true)
    (hcmd : pyOrEmptyStrip (jGet (JVal.obj kvs) (S "command")) = .ok cmd)
    (hcne : cmd ≠ [])
    (hdang : looksDangerousCommand cmd = true)
    (fuel r : Nat) (messages : List Msg) (st : RunSt) (replies : List (Nat × PyStr))
    (hcanc : cancel st.cancelChecks = false) :
    ntLoopGo oracle executor cancel assetName asset (fuel + 1) r messages st replies =
      .ok ⟨ntDangerousReply cmd, r + 1, messages,
        ⟨st.chatCalls + 1, st.cancelChecks + 1, st.events⟩,
        replies ++ [(r + 1, pyStrip raw)]⟩ := by
  have hne1 : pyStrip raw ≠ [] := fun h => hne (by rw [h]; rfl)
  have hc0 : pyOrEmptyStrip (jGet plan (S "conclusion")) = .ok [] := by rw [hconc]; rfl
  simp only [ntLoopGo, chatOnce, bind, Except.bind, horacle, hcanc,
    Bool.false_eq_true, if_false, pure, Except.pure]
  rw [if_neg hne]
  rw [if_pos hne1]
  rw [if_neg hne]
  rw [hext]
  simp only [hc0]
  rw [if_neg (fun h => h.2 rfl)]
  rw [if_neg (fun h => h.1 rfl)]
  rw [hcmds]
  simp only [List.head?, htr, if_true, hdang]
  simp only [hcmd]
  rw [if_neg hcne]
  simp only [hdang, if_true]

/-- `_run_no_tools_mode` on a first reply whose plan carries a dangerous
command: one round, the refusal reply, and no command events at all. -/
theorem c1_nt_reject (oracle : ChatOracle) (executor : AssetConfig → PyStr → PyStr)
    (cancel : Nat → Bool) (config : AppConfig) (instr raw : PyStr)
    (assetName : PyStr) (rest : List PyStr) (asset : AssetConfig)
    (plan : JVal) (kvs : List (PyStr × JVal)) (tl : List JVal) (cmd : PyStr)
    (hres : resolveTargetAssets config instr = (some (assetName :: rest), true))
    (hfound : getAssetByName config assetName = some asset)
    (hcanc : cancel 0 = false)
    (horacle : ∀ i m kw, oracle i m kw = raw)
    (hne : pyStrip (pyStrip raw) ≠ [])
    (hext : extractJson (pyStrip raw) = some plan)
    (hconc : jGet plan (S "conclusion") = none)
    (hcmds : jGet plan (S "commands") = some (JVal.arr (JVal.obj kvs :: tl)))
    (htr : jTruthy (JVal.obj kvs) = true)
    (hcmd : pyOrEmptyStrip (jGet (JVal.obj kvs) (S "command")) = .ok cmd)
    (hcne : cmd ≠ [])
    (hdang : looksDangerousCommand cmd = true) :
    ∃ m, runNoToolsMode oracle executor cancel config instr =
      .ok ⟨ntDangerousReply cmd, 1, m, ⟨1, 1, []⟩, [(1, pyStrip raw)]⟩ := by
  apply Exists.intro
  simp only [runNoToolsMode, hres, hfound, Bool.not_true, Bool.false_eq_true, if_false,
    Option.getD]
  simp only [NO_TOOLS_MAX_ROUNDS]
  rw [show (30 : Nat) = 29 + 1 from rfl]
  rw [ntLoopGo_dangerous oracle executor cancel assetName asset raw plan kvs tl cmd
    horacle hne hext hconc hcmds htr hcmd hcne hdang 29 0 _ RunSt.init [] hcanc]
  rfl

/-- The constant model reply of the C1 no-tools witness: a plan whose only
command is `rm -rf /`. -/
def c1Raw : PyStr :=
  S "\x7b\"commands\":[\x7b\"command\":\"rm -rf /\",\"purpose\":\"x\"\x7d]\x7d"

/-- The no-tools witness oracle, constantly replying `c1Raw`. -/
def c1NtOracle : ChatOracle := fun _ _ _ => c1Raw

/-- The command object inside `c1Raw`'s plan. -/
def c1Kvs : List (PyStr × JVal) :=
  [(S "command", JVal.str (S "rm -rf /")), (S "purpose", JVal.str (S "x"))]

/-- C1 (amended): the self-coded dispatcher applies no destructive-pattern
check at all — an `ExecuteCommand` whose command is classified dangerous but
names a known asset and a nonempty, non-placeholder command is dispatched to
the executor like any other command, the wrapped result is returned and the
loop continues (`is_final = false`).  Only the no-tools fallback loop consults
the pattern list; there a dangerous command is rejected before dispatch (the
executor is never invoked, no command events appear), but the run terminates
immediately with the refusal reply instead of continuing to the next round. -/
theorem c1_amended :
    (∀ (ctx : DispatchCtx) (cancel : Nat → Bool) (asset : AssetConfig)
      (assetName cmd0 cmd : PyStr) (st : RunSt),
      pyStrip assetName = assetName →
      pyReplace (pyReplace (pyStrip cmd0) (S "\\n") (S "\n")) (S "\\t") (S "\t") = cmd →
      assetName ≠ [] → cmd0 ≠ [] → cmd ≠ [] →
      assetName ≠ S "资产名称" → pyStrip cmd ≠ S "shell 命令" →
      ¬(ctx.useMcp = true ∧ ctx.mcpUrl ≠ []) →
      getAssetByName ctx.config assetName = some asset →
      cancel st.cancelChecks = false →
      looksDangerousCommand cmd = true →
      orchDispatch ctx cancel (mkExecAction assetName cmd0) st =
        .ok (wrapToolResult
              (some (if ctx.executor asset cmd = [] then S "(无输出)" else ctx.executor asset cmd))
              (some assetName), false,
          ⟨st.chatCalls, st.cancelChecks + 1,
            st.events ++ [CmdEvent.start assetName cmd,
              CmdEvent.done assetName cmd (ctx.executor asset cmd)]⟩)) ∧
    (∀ (oracle : ChatOracle) (executor : AssetConfig → PyStr → PyStr)
      (cancel : Nat → Bool) (config : AppConfig) (instr raw : PyStr)
      (assetName : PyStr) (rest : List PyStr) (asset : AssetConfig)
      (plan : JVal) (kvs : List (PyStr × JVal)) (tl : List JVal) (cmd : PyStr),
      resolveTargetAssets config instr = (some (assetName :: rest), true) →
      getAssetByName config assetName = some asset →
      cancel 0 = false →
      (∀ i m kw, oracle i m kw = raw) →
      pyStrip (pyStrip raw) ≠ [] →
      extractJson (pyStrip raw) = some plan →
      jGet plan (S "conclusion") = none →
      jGet plan (S "commands") = some (JVal.arr (JVal.obj kvs :: tl)) →
      jTruthy (JVal.obj kvs) = true →
      pyOrEmptyStrip (jGet (JVal.obj kvs) (S "command")) = .ok cmd →
      cmd ≠ [] →
      looksDangerousCommand cmd = true →
      ∃ m, runNoToolsMode oracle executor cancel config instr =
        .ok ⟨ntDangerousReply cmd, 1, m, ⟨1, 1, []⟩, [(1, pyStrip raw)]⟩) :=
  ⟨fun ctx cancel asset assetName cmd0 cmd st h1 h2 h3 h4 h5 h6 h7 h8 h9 h10 _h11 =>
    orchDispatch_exec ctx cancel asset assetName cmd0 cmd st h1 h2 h3 h4 h5 h6 h7 h8 h9 h10,
   fun oracle executor cancel config instr raw assetName rest asset plan kvs tl cmd
      h1 h2 h3 h4 h5 h6 h7 h8 h9 h10 h11 h12 =>
    c1_nt_reject oracle executor cancel config instr raw assetName rest asset plan kvs tl cmd
      h1 h2 h3 h4 h5 h6 h7 h8 h9 h10 h11 h12⟩

/-- C1 witness: `rm -rf /` on `web-01` is executed by the self-coded
dispatcher (both command events fire), and the same command makes the
no-tools loop stop at round 1 with the refusal reply and no events. -/
theorem c1_amended_witness :
    orchDispatch c1Ctx1 (fun _ => false) (mkExecAction (S "web-01") (S "rm -rf /")) RunSt.init =
      .ok (wrapToolResult
            (some (if c1Ctx1.executor ⟨S "web-01", S "10.0.0.1", 22, S "root", some (S "pw"), none⟩
                (S "rm -rf /") = [] then S "(无输出)"
              else c1Ctx1.executor ⟨S "web-01", S "10.0.0.1", 22, S "root", some (S "pw"), none⟩
                (S "rm -rf /")))
            (some (S "web-01")), false,
        ⟨RunSt.init.chatCalls, RunSt.init.cancelChecks + 1,
          RunSt.init.events ++ [CmdEvent.start (S "web-01") (S "rm -rf /"),
            CmdEvent.done (S "web-01") (S "rm -rf /")
              (c1Ctx1.executor ⟨S "web-01", S "10.0.0.1", 22, S "root", some (S "pw"), none⟩
                (S "rm -rf /"))]⟩) ∧
    (∃ m, runNoToolsMode c1NtOracle (fun _ _ => S "NEVER-RUN") (fun _ => false) c1Config
        (S "检查 web-01 的磁盘") =
      .ok ⟨ntDangerousReply (S "rm -rf /"), 1, m, ⟨1, 1, []⟩, [(1, pyStrip c1Raw)]⟩) :=
  ⟨c1_amended.1 c1Ctx1 (fun _ => false)
      ⟨S "web-01", S "10.0.0.1", 22, S "root", some (S "pw"), none⟩
      (S "web-01") (S "rm -rf /") (S "rm -rf /") RunSt.init
      rfl rfl (by decide) (by decide) (by decide) (by decide) (by decide)
      (by decide) rfl rfl rfl,
   c1_amended.2 c1NtOracle (fun _ _ => S "NEVER-RUN") (fun _ => false) c1Config
      (S "检查 web-01 的磁盘") c1Raw (S "web-01") [] 
      ⟨S "web-01", S "10.0.0.1", 22, S "root", some (S "pw"), none⟩
      (JVal.obj [(S "commands", JVal.arr [JVal.obj c1Kvs])]) c1Kvs [] (S "rm -rf /")
      rfl rfl rfl (fun _ _ _ => rfl) (by decide) rfl rfl rfl (by decide) rfl
      (by decide) rfl⟩


/-- An `execute_command` dispatch that reads a set cancel token returns the
cancelled terminal reply at once: nothing is executed, no events appear. -/
theorem orchDispatch_cancelled (ctx : DispatchCtx) (cancel : Nat → Bool)
    (assetName cmd0 : PyStr) (st : RunSt)
    (hc : cancel st.cancelChecks = true) :
    orchDispatch ctx cancel (mkExecAction assetName cmd0) st =
      .ok (S "已按用户请求停止。", true,
        ⟨st.chatCalls, st.cancelChecks + 1, st.events⟩) := by
  have ha4 : pyOrEmptyStrip (jGet (mkExecAction assetName cmd0) (S "action")) =
      .ok (S "execute_command") := rfl
  simp only [orchDispatch, bind, Except.bind, ha4]
  rw [if_neg (by decide : ¬(S "execute_command" = S "list_assets"))]
  rw [if_pos trivial]
  simp only [hc, if_true]
  rfl

/-- The final branch passes a nonempty, non-fluff dispatcher reply through
unchanged when the first user message matches no table rewrite and the model
content is short. -/
theorem fcFinalBranch_passthrough (oracle : ChatOracle) (action : JVal)
    (content userMsg : PyStr) (messages : List Msg) (st : RunSt)
    (h1 : pyStrip userMsg = userMsg) (h2 : userMsg ≠ [])
    (hfind : messages.find? (fun m => m.role == S "user") =
      some ⟨S "user", S "查看 web-01 状态"⟩)
    (hlen : ¬(2000 < content.length))
    (hfluff : isFinalMessageFluff userMsg = false) :
    fcFinalBranch oracle action content userMsg messages st =
      .ok (userMsg, messages, st) := by
  have h2' := eq_true h2
  have hq1 : ([S "用户", S "权限", S "passwd", S "getent", S "账号", S "账户"].any
      (fun k => pyContains (List.take 500 (S "查看 web-01 状态")) k)) = false := by decide
  have hq2 : ([S "df", S "磁盘", S "空间", S "挂载", S "容量", S "使用率"].any
      (fun k => pyContains (List.take 500 (S "查看 web-01 状态")) k)) = false := by decide
  simp only [fcFinalBranch, bind, Except.bind, h1, hfind, Option.map, Option.getD,
    h2', if_true, hq1, hq2, Bool.false_eq_true, if_false]
  have hm2 : (if 2000 < List.length content ∧
        pyContains content (S "|") = true ∧
          3 ≤ pyCountChar content '|' ∧
            (pyContains content (S "用户") || pyContains content (S "UID") ||
              looksLikeFinalSummary content) = true ∧
              List.length userMsg < 500 then
      (if 12000 < List.length content then
        List.take 12000 (pyStrip content) ++ S "\n\n(以上为摘要，内容已截断。)"
      else List.take 12000 (pyStrip content))
    else userMsg) = userMsg := if_neg (fun h => hlen h.1)
  rw [hm2]
  simp only [hfluff, Bool.false_eq_true, if_false, pure, Except.pure]

/-- One non-final round of the self-coded loop: a parsed action plus a
non-terminal dispatch step to the next round with the conversation and run
context advanced. -/
theorem chatSelfCodedGo_step (oracle : ChatOracle) (dispatchF : DispatchFn)
    (fuel r n : Nat) (msgs : List Msg) (st : RunSt) (a : JVal) (u : PyStr) (st' : RunSt)
    (hne : pyStrip (pyStrip (oracle st.chatCalls msgs
      ⟨some 8192, some (if r = 0 then 5 else 3)⟩)) ≠ [])
    (hpa : parseSelfCodedAction (pyStrip (pyStrip (oracle st.chatCalls msgs
      ⟨some 8192, some (if r = 0 then 5 else 3)⟩))) = .ok (some a))
    (hd : dispatchF a { st with chatCalls := st.chatCalls + 1 } = .ok (u, false, st')) :
    chatSelfCodedGo oracle dispatchF (fuel + 1) r n msgs st =
      chatSelfCodedGo oracle dispatchF fuel (r + 1) n
        ((msgs ++ [⟨S "assistant", pyStrip (pyStrip (oracle st.chatCalls msgs
          ⟨some 8192, some (if r = 0 then 5 else 3)⟩))⟩]) ++
          [⟨S "user", if u = [] then S "(无输出)" else u⟩]) st' := by
  simp only [chatSelfCodedGo, chatOnce, bind, Except.bind]
  rw [if_neg hne]
  rw [hpa]
  simp only [fcRetryParse]
  rw [hd]
  simp only [Bool.false_eq_true, if_false]

/-- A terminal round of the self-coded loop: a parsed action whose dispatch
reports final ends the run through the final branch. -/
theorem chatSelfCodedGo_final (oracle : ChatOracle) (dispatchF : DispatchFn)
    (fuel r n : Nat) (msgs : List Msg) (st : RunSt) (a : JVal) (u fm : PyStr)
    (st' : RunSt) (msgs2 : List Msg) (st2 : RunSt)
    (hne : pyStrip (pyStrip (oracle st.chatCalls msgs
      ⟨some 8192, some (if r = 0 then 5 else 3)⟩)) ≠ [])
    (hpa : parseSelfCodedAction (pyStrip (pyStrip (oracle st.chatCalls msgs
      ⟨some 8192, some (if r = 0 then 5 else 3)⟩))) = .ok (some a))
    (hd : dispatchF a { st with chatCalls := st.chatCalls + 1 } = .ok (u, true, st'))
    (hfb : fcFinalBranch oracle a (pyStrip (pyStrip (oracle st.chatCalls msgs
        ⟨some 8192, some (if r = 0 then 5 else 3)⟩))) u
        (msgs ++ [⟨S "assistant", pyStrip (pyStrip (oracle st.chatCalls msgs
          ⟨some 8192, some (if r = 0 then 5 else 3)⟩))⟩]) st' = .ok (fm, msgs2, st2)) :
    chatSelfCodedGo oracle dispatchF (fuel + 1) r n msgs st =
      .ok ⟨fm, r + 1, msgs2, st2⟩ := by
  simp only [chatSelfCodedGo, chatOnce, bind, Except.bind]
  rw [if_neg hne]
  rw [hpa]
  simp only [fcRetryParse]
  rw [hd]
  simp only [if_true]
  rw [hfb]

/-- The C8 oracle: every round replies with the bare-JSON `ExecuteCommand`. -/
def c8Oracle : ChatOracle := fun _ _ _ => wireBareForm

/-- The single configured asset of the C8 scenario. -/
def c8Asset : AssetConfig := ⟨S "web-01", S "10.0.0.1", 22, S "root", some (S "pw"), none⟩

/-- The C8 dispatch context over an arbitrary executor `E` (no MCP). -/
def c8Ctx (E : AssetConfig → PyStr → PyStr) : DispatchCtx :=
  ⟨c1Config, false, [], fun _ _ => [], E⟩

/-- The C8 oracle reply strips to a nonempty text. -/
theorem c8w1 : pyStrip (pyStrip wireBareForm) ≠ [] := by decide

set_option maxRecDepth 10000 in
/-- The C8 oracle reply parses to the canonical `ExecuteCommand`. -/
theorem c8w2 : parseSelfCodedAction (pyStrip (pyStrip wireBareForm)) =
    .ok (some (mkExecAction (S "web-01") (S "df -h"))) := rfl

/-- The action every C8 round parses to. -/
def c8A : JVal := mkExecAction (S "web-01") (S "df -h")

/-- The wrapped tool result of C8's first (in-flight) command. -/
def c8U (E : AssetConfig → PyStr → PyStr) : PyStr :=
  wrapToolResult (some (if E c8Asset (S "df -h") = [] then S "(无输出)"
    else E c8Asset (S "df -h"))) (some (S "web-01"))

/-- The two command events of C8's first round: the start callback and the
completion callback carrying the executor's result. -/
def c8Events (E : AssetConfig → PyStr → PyStr) : List CmdEvent :=
  [CmdEvent.start (S "web-01") (S "df -h"),
    CmdEvent.done (S "web-01") (S "df -h") (E c8Asset (S "df -h"))]

/-- The initial conversation of the C8 scenario. -/
def c8Msgs0 : List Msg := [⟨S "user", S "查看 web-01 状态"⟩]

/-- The conversation after C8's first round. -/
def c8Msgs1 (E : AssetConfig → PyStr → PyStr) : List Msg :=
  (c8Msgs0 ++ [⟨S "assistant", pyStrip (pyStrip wireBareForm)⟩]) ++
    [⟨S "user", if c8U E = [] then S "(无输出)" else c8U E⟩]

/-- The conversation at the final branch of C8's second round. -/
def c8Msgs2 (E : AssetConfig → PyStr → PyStr) : List Msg :=
  c8Msgs1 E ++ [⟨S "assistant", pyStrip (pyStrip wireBareForm)⟩]

set_option maxRecDepth 10000 in
/-- C8: cancellation is cooperative, never preemptive.  With the token unset
at the first dispatch and set from the second on, the in-flight command still
completes — its start and completion callbacks both fire and the completion
event records the executor's result — and the run then terminates with the
cancelled terminal reply at the next check point, performing no further
dispatch (the event list stays exactly the first round's). -/
theorem c8_cooperative_cancellation (E : AssetConfig → PyStr → PyStr) (cancel : Nat → Bool)
    (hc0 : cancel 0 = false) (hc1 : cancel 1 = true) :
    ∃ m, chatWithSelfCodedFc c8Oracle (orchDispatch (c8Ctx E) cancel) c8Msgs0 =
      .ok ⟨S "已按用户请求停止。", 2, m, ⟨2, 2, c8Events E⟩⟩ := by
  have hd1 : orchDispatch (c8Ctx E) cancel c8A (⟨1, 0, []⟩ : RunSt) =
      .ok (c8U E, false, ⟨1, 1, c8Events E⟩) :=
    orchDispatch_exec (c8Ctx E) cancel c8Asset (S "web-01") (S "df -h") (S "df -h")
      ⟨1, 0, []⟩ rfl rfl (by decide) (by decide) (by decide) (by decide) (by decide)
      (fun h => Bool.noConfusion h.1) rfl hc0
  have hstep := chatSelfCodedGo_step c8Oracle (orchDispatch (c8Ctx E) cancel) 49 0 0
    c8Msgs0 RunSt.init c8A (c8U E) ⟨1, 1, c8Events E⟩ c8w1 c8w2 hd1
  have hd2 : orchDispatch (c8Ctx E) cancel c8A (⟨2, 1, c8Events E⟩ : RunSt) =
      .ok (S "已按用户请求停止。", true, ⟨2, 2, c8Events E⟩) :=
    orchDispatch_cancelled (c8Ctx E) cancel (S "web-01") (S "df -h") ⟨2, 1, c8Events E⟩ hc1
  have hfb : fcFinalBranch c8Oracle c8A (pyStrip (pyStrip wireBareForm))
      (S "已按用户请求停止。") (c8Msgs2 E) (⟨2, 2, c8Events E⟩ : RunSt) =
      .ok (S "已按用户请求停止。", c8Msgs2 E, ⟨2, 2, c8Events E⟩) :=
    fcFinalBranch_passthrough c8Oracle c8A (pyStrip (pyStrip wireBareForm))
      (S "已按用户请求停止。") (c8Msgs2 E) ⟨2, 2, c8Events E⟩
      rfl (by decide) rfl (by decide) (by decide)
  have hfin := chatSelfCodedGo_final c8Oracle (orchDispatch (c8Ctx E) cancel) 48 1 0
    (c8Msgs1 E) ⟨1, 1, c8Events E⟩ c8A (S "已按用户请求停止。") (S "已按用户请求停止。")
    ⟨2, 2, c8Events E⟩ (c8Msgs2 E) ⟨2, 2, c8Events E⟩ c8w1 c8w2 hd2 hfb
  exact ⟨c8Msgs2 E, hstep.trans hfin⟩

/-- The C8 witness executor. -/
def c8ExecW : AssetConfig → PyStr → PyStr := fun _ _ => S "RESULT"

/-- The C8 witness cancel stream: unset at check 0, set from check 1 on. -/
def c8CancelW : Nat → Bool := fun n => decide (1 ≤ n)

/-- C8 witness: the cancellation theorem at a concrete executor and the
cancel stream that flips after the first check. -/
theorem c8_cooperative_cancellation_witness :
    ∃ m, chatWithSelfCodedFc c8Oracle (orchDispatch (c8Ctx c8ExecW) c8CancelW) c8Msgs0 =
      .ok ⟨S "已按用户请求停止。", 2, m, ⟨2, 2, c8Events c8ExecW⟩⟩ :=
  c8_cooperative_cancellation c8ExecW c8CancelW (by decide) (by decide)

end AiOps
